import Mathlib

/-!
Verification of the WebAuthn PRF encryption demo.

Shallow embedding of the repository:
  server/src/index.ts  - Hono endpoints (ceremony orchestration, blob store)
  server/src/db.ts     - D1 row store for users and passkeys
  client/src/crypto.ts - base64url codecs, HKDF key derivation, AES-GCM calls
  client/src/App.tsx   - client flows (register, authenticate, encrypt, decrypt)

Bytes are `List Nat` with values below 256 where it matters.  The
platform CSPRNG (crypto.getRandomValues) is modelled as reading a tape of
random bytes.  External collaborators (the WebAuthn verifier library and
the WebCrypto AES-GCM primitive) are modelled from the specification and
are marked as such in their doc comments.  HKDF-SHA256 is implemented
concretely (RFC 5869 over a full SHA-256), matching the parameters the
code passes to crypto.subtle.deriveKey.
-/
namespace WebauthnPrf

/-! ## Base64 (JS btoa / atob over byte lists)

The client moves ciphertexts and nonces over the wire as base64 /
base64url text (crypto.ts: uint8ArrayToBase64Url, base64UrlToUint8Array;
index.ts: atob / btoa).  Characters are `List Char`. -/
/-- The standard base64 alphabet used by btoa and atob. -/
def b64chars : List Char :=
  "ABCDEFGHIJKLMNOPQRSTUVWXYZabcdefghijklmnopqrstuvwxyz0123456789+/".toList

/-- The character for a sextet value. -/
def b64char (n : Nat) : Char := b64chars.getD n '='

/-- The sextet value of a base64 character. -/
def b64val (c : Char) : Nat := b64chars.indexOf c

/-- JS btoa: bytes to base64 characters, three bytes per four characters,
with trailing padding by the equals sign. -/
def btoaList : List Nat → List Char
  | [] => []
  | [b0] => [b64char (b0 / 4), b64char (b0 % 4 * 16), '=', '=']
  | [b0, b1] =>
      [b64char (b0 / 4), b64char (b0 % 4 * 16 + b1 / 16), b64char (b1 % 16 * 4), '=']
  | b0 :: b1 :: b2 :: rest =>
      b64char (b0 / 4) :: b64char (b0 % 4 * 16 + b1 / 16) ::
        b64char (b1 % 16 * 4 + b2 / 64) :: b64char (b2 % 64) :: btoaList rest

/-- The sextet stream of an encoding, before characters and padding. -/
def btoaSextets : List Nat → List Nat
  | [] => []
  | [b0] => [b0 / 4, b0 % 4 * 16]
  | [b0, b1] => [b0 / 4, b0 % 4 * 16 + b1 / 16, b1 % 16 * 4]
  | b0 :: b1 :: b2 :: rest =>
      b0 / 4 :: (b0 % 4 * 16 + b1 / 16) :: (b1 % 16 * 4 + b2 / 64) :: b2 % 64 ::
        btoaSextets rest

/-- Decode a sextet stream back to bytes (padding already stripped). -/
def b64decodeSextets : List Nat → List Nat
  | s0 :: s1 :: s2 :: s3 :: rest =>
      (s0 * 4 + s1 / 16) :: (s1 % 16 * 16 + s2 / 4) :: (s2 % 4 * 64 + s3) ::
        b64decodeSextets rest
  | [s0, s1] => [s0 * 4 + s1 / 16]
  | [s0, s1, s2] => [s0 * 4 + s1 / 16, s1 % 16 * 16 + s2 / 4]
  | _ => []

/-- JS atob: base64 characters back to bytes; padding characters are
ignored by the decoder. -/
def atobList (s : List Char) : List Nat :=
  b64decodeSextets ((s.filter (· ≠ '=')).map b64val)

/-- The replacement crypto.ts applies to make base64 URL-safe. -/
def b64urlRepl (c : Char) : Char :=
  if c = '+' then '-' else if c = '/' then '_' else c

/-- The inverse replacement applied before decoding. -/
def b64urlUnrepl (c : Char) : Char :=
  if c = '-' then '+' else if c = '_' then '/' else c

/-- crypto.ts uint8ArrayToBase64Url: btoa, then replace plus by minus and
slash by underscore, then strip padding. -/
def uint8ArrayToBase64Url (array : List Nat) : List Char :=
  ((btoaList array).map b64urlRepl).filter (· ≠ '=')

/-- crypto.ts base64UrlToUint8Array: undo the replacements, restore
padding to a multiple of four, then atob. -/
def base64UrlToUint8Array (base64url : List Char) : List Nat :=
  let base64 := base64url.map b64urlUnrepl
  let padded := base64 ++ List.replicate ((4 - base64.length % 4) % 4) '='
  atobList padded

/-! ## SHA-256, HMAC-SHA256 and HKDF

crypto.ts derives the AES key through crypto.subtle.deriveKey with
algorithm HKDF, hash SHA-256, the given salt and empty info.  The
platform primitive is modelled concretely: a full SHA-256 over 32-bit
words represented as Nat below 2^32, HMAC per FIPS 198, HKDF per
RFC 5869. -/
/-- 2 to the 32, the word modulus. -/
def w32 : Nat := 4294967296

/-- Right rotation of a 32-bit word. -/
def rotr (n x : Nat) : Nat := (x / 2 ^ n + x % 2 ^ n * 2 ^ (32 - n)) % w32

/-- Logical right shift. -/
def shr (n x : Nat) : Nat := x / 2 ^ n

def bigSigma0 (x : Nat) : Nat := rotr 2 x ^^^ rotr 13 x ^^^ rotr 22 x

def bigSigma1 (x : Nat) : Nat := rotr 6 x ^^^ rotr 11 x ^^^ rotr 25 x

def smallSigma0 (x : Nat) : Nat := rotr 7 x ^^^ rotr 18 x ^^^ shr 3 x

def smallSigma1 (x : Nat) : Nat := rotr 17 x ^^^ rotr 19 x ^^^ shr 10 x

def chWord (x y z : Nat) : Nat := (x &&& y) ^^^ ((x ^^^ 4294967295) &&& z)

def majWord (x y z : Nat) : Nat := (x &&& y) ^^^ (x &&& z) ^^^ (y &&& z)

/-- The 64 SHA-256 round constants. -/
def sha256K : List Nat :=
  [1116352408, 1899447441, 3049323471, 3921009573, 961987163,
   1508970993, 2453635748, 2870763221, 3624381080, 310598401,
   607225278, 1426881987, 1925078388, 2162078206, 2614888103,
   3248222580, 3835390401, 4022224774, 264347078, 604807628,
   770255983, 1249150122, 1555081692, 1996064986, 2554220882,
   2821834349, 2952996808, 3210313671, 3336571891, 3584528711,
   113926993, 338241895, 666307205, 773529912, 1294757372,
   1396182291, 1695183700, 1986661051, 2177026350, 2456956037,
   2730485921, 2820302411, 3259730800, 3345764771, 3516065817,
   3600352804, 4094571909, 275423344, 430227734, 506948616,
   659060556, 883997877, 958139571, 1322822218, 1537002063,
   1747873779, 1955562222, 2024104815, 2227730452, 2361852424,
   2428436474, 2756734187, 3204031479, 3329325298]

/-- The initial hash state. -/
def sha256H0 : List Nat :=
  [1779033703, 3144134277, 1013904242, 2773480762,
   1359893119, 2600822924, 528734635, 1541459225]

/-- Extend a 16-word message block to a 64-word schedule. -/
def extendSchedule (w0 : List Nat) : List Nat :=
  (List.range 48).foldl
    (fun w _ =>
      let n := w.length
      w ++ [(smallSigma1 (w.getD (n - 2) 0) + w.getD (n - 7) 0 +
             smallSigma0 (w.getD (n - 15) 0) + w.getD (n - 16) 0) % w32])
    w0

/-- One SHA-256 compression round over the eight-word state. -/
def compressStep (st : List Nat) (kw : Nat × Nat) : List Nat :=
  match st with
  | [a, b, c, d, e, f, g, hh] =>
      let t1 := (hh + bigSigma1 e + chWord e f g + kw.1 + kw.2) % w32
      let t2 := (bigSigma0 a + majWord a b c) % w32
      [(t1 + t2) % w32, a, b, c, (d + t1) % w32, e, f, g]
  | _ => st

/-- Process one 16-word block. -/
def sha256Block (h : List Nat) (block : List Nat) : List Nat :=
  let w := extendSchedule block
  let st := (sha256K.zip w).foldl compressStep h
  (h.zip st).map (fun p => (p.1 + p.2) % w32)

/-- Big-endian bytes of the message length in bits, eight bytes. -/
def lengthBytes (bitLen : Nat) : List Nat :=
  [bitLen / 2 ^ 56 % 256, bitLen / 2 ^ 48 % 256, bitLen / 2 ^ 40 % 256,
   bitLen / 2 ^ 32 % 256, bitLen / 2 ^ 24 % 256, bitLen / 2 ^ 16 % 256,
   bitLen / 2 ^ 8 % 256, bitLen % 256]

/-- SHA-256 padding: append 0x80, zero bytes to 56 mod 64, then the
bit length. -/
def sha256Pad (msg : List Nat) : List Nat :=
  msg ++ [128] ++ List.replicate ((119 - msg.length % 64) % 64) 0 ++
    lengthBytes (msg.length * 8)

/-- Pack bytes into big-endian 32-bit words. -/
def bytesToWords : List Nat → List Nat
  | b0 :: b1 :: b2 :: b3 :: rest =>
      (b0 * 16777216 + b1 * 65536 + b2 * 256 + b3) :: bytesToWords rest
  | _ => []

/-- Unpack 32-bit words into big-endian bytes. -/
def wordsToBytes : List Nat → List Nat
  | [] => []
  | w :: rest =>
      w / 16777216 % 256 :: w / 65536 % 256 :: w / 256 % 256 :: w % 256 ::
        wordsToBytes rest

/-- Split a word list into 16-word blocks. -/
def toBlocks : List Nat → List (List Nat)
  | w0 :: w1 :: w2 :: w3 :: w4 :: w5 :: w6 :: w7 ::
    w8 :: w9 :: w10 :: w11 :: w12 :: w13 :: w14 :: w15 :: rest =>
      [w0, w1, w2, w3, w4, w5, w6, w7, w8, w9, w10, w11, w12, w13, w14, w15] ::
        toBlocks rest
  | _ => []

/-- SHA-256 of a byte list, as 32 digest bytes. -/
def sha256 (msg : List Nat) : List Nat :=
  wordsToBytes ((toBlocks (bytesToWords (sha256Pad msg))).foldl sha256Block sha256H0)

/-- HMAC-SHA256 per FIPS 198 with a 64-byte block. -/
def hmacSha256 (key msg : List Nat) : List Nat :=
  let k0 := if key.length > 64 then sha256 key else key
  let kPad := k0 ++ List.replicate (64 - k0.length) 0
  let ipad := kPad.map (· ^^^ 54)
  let opad := kPad.map (· ^^^ 92)
  sha256 (opad ++ sha256 (ipad ++ msg))

/-- HKDF expansion blocks: T(i) = HMAC(prk, T(i-1) || info || i). -/
def hkdfBlocks (prk info : List Nat) : List Nat → List Nat → List Nat
  | _, [] => []
  | prev, i :: rest =>
      let t := hmacSha256 prk (prev ++ info ++ [i])
      t ++ hkdfBlocks prk info t rest

/-- HKDF-SHA256 per RFC 5869: extract with the salt, then expand. -/
def hkdfSha256 (salt ikm info : List Nat) (len : Nat) : List Nat :=
  let prk := hmacSha256 salt ikm
  (hkdfBlocks prk info [] ((List.range ((len + 31) / 32)).map (· + 1))).take len

/-! ## crypto.ts: client crypto utilities

crypto.getRandomValues is modelled as reading a tape of random bytes
supplied by the environment; everything else in crypto.ts is a pure
function of its arguments. -/
/-- crypto.ts generatePrfSalt: 32 random bytes. -/
def generatePrfSalt (tape : List Nat) : List Nat := tape.take 32

/-- crypto.ts generateNonce: 12 random bytes. -/
def generateNonce (tape : List Nat) : List Nat := tape.take 12

/-- The WebCrypto key object as it leaves crypto.subtle.deriveKey. -/
structure CryptoKeyM where
  material : List Nat
  algorithm : String
  keyLength : Nat
  extractable : Bool
  usages : List String
  deriving DecidableEq, Repr

/-- The default HKDF salt in crypto.ts: new Uint8Array(32), 32 zero
bytes; App.tsx always calls deriveEncryptionKey with this default. -/
def defaultHkdfSalt : List Nat := List.replicate 32 0

/-- crypto.ts deriveEncryptionKey: import the PRF output as HKDF key
material and derive a non-extractable 256-bit AES-GCM key via HKDF with
SHA-256, the given salt and empty info.  The code performs no validation
of either input length; crypto.subtle accepts key material and salt of
any length for HKDF, so the derivation is total. -/
def deriveEncryptionKey (prfOutput : List Nat) (salt : List Nat) : CryptoKeyM :=
  { material := hkdfSha256 salt prfOutput [] 32
  , algorithm := "AES-GCM"
  , keyLength := 256
  , extractable := false
  , usages := ["encrypt", "decrypt"] }

/-- The ambient context of one call: process, wall-clock instant, and
the CSPRNG tape the platform would serve that call. -/
structure CallCtx where
  processId : Nat
  timeMillis : Nat
  randTape : List Nat
  deriving DecidableEq

/-- deriveEncryptionKey as invoked in some call context.  The code
passes crypto.subtle.deriveKey only the fixed algorithm parameters, the
PRF output and the salt; no randomness, time or process identity flows
into the derivation. -/
def deriveEncryptionKeyAt (_ctx : CallCtx) (prfOutput salt : List Nat) :
    CryptoKeyM :=
  deriveEncryptionKey prfOutput salt

/-! ### AES-GCM, modelled from the spec

Modelled from the spec: AES-GCM encryption and decryption are performed
by crypto.subtle.encrypt / crypto.subtle.decrypt (an external platform
collaborator, spec section 4.3 and 8): authenticated symmetric
encryption where decrypting a ciphertext with the key and nonce used to
produce it returns the plaintext, and an authentication-tag mismatch
fails.  The model is a keystream cipher plus a 16-byte tag over the
ciphertext. -/
/-- Modelled from the spec: the keystream byte at position i. -/
def aesGcmKeystream (key nonce : List Nat) (i : Nat) : Nat :=
  (key.foldl (fun a b => (a * 257 + b) % 65536) 7 +
   nonce.foldl (fun a b => (a * 263 + b) % 65536) 11 + i * 131) % 256

/-- XOR a byte list against the keystream starting at position i. -/
def xorStream (key nonce : List Nat) : Nat → List Nat → List Nat
  | _, [] => []
  | i, b :: rest => (b ^^^ aesGcmKeystream key nonce i) :: xorStream key nonce (i + 1) rest

/-- Modelled from the spec: the 16-byte authentication tag. -/
def aesGcmTag (key nonce ct : List Nat) : List Nat :=
  (List.range 16).map
    (fun i => (aesGcmKeystream key nonce (ct.length + i) +
               ct.foldl (fun a b => (a * 31 + b) % 65536) 0) % 256)

/-- Modelled from the spec: crypto.subtle.encrypt with AES-GCM. -/
def subtleAesGcmEncrypt (key nonce data : List Nat) : List Nat :=
  let body := xorStream key nonce 0 data
  body ++ aesGcmTag key nonce body

/-- Modelled from the spec: crypto.subtle.decrypt with AES-GCM; none is
the DOMException raised on an authentication failure. -/
def subtleAesGcmDecrypt (key nonce ct : List Nat) : Option (List Nat) :=
  if ct.length < 16 then none
  else
    let n := ct.length - 16
    let body := ct.take n
    if ct.drop n = aesGcmTag key nonce body then some (xorStream key nonce 0 body)
    else none

/-- crypto.ts encryptData: AES-GCM encrypt under the derived key. -/
def encryptData (key : CryptoKeyM) (data nonce : List Nat) : List Nat :=
  subtleAesGcmEncrypt key.material nonce data

/-- crypto.ts decryptData: AES-GCM decrypt under the derived key. -/
def decryptData (key : CryptoKeyM) (ciphertext nonce : List Nat) :
    Option (List Nat) :=
  subtleAesGcmDecrypt key.material nonce ciphertext

/-! ## The D1 row store (server/schema.sql and server/src/db.ts)

Rows of the users and passkeys tables; the schema declares users.id as
the integer primary key (autoincrement) and users.username as unique,
passkeys.cred_id as the text primary key. -/
/-- One row of the users table. -/
structure UserRow where
  id : Nat
  username : String
  prf_salt : Option (List Char)
  encrypted_blob_key : Option String
  blob_nonce : Option (List Char)
  deriving DecidableEq, Repr

/-- One row of the passkeys table. -/
structure PasskeyRow where
  cred_id : String
  cred_public_key : List Nat
  internal_user_id : Nat
  webauthn_user_id : String
  counter : Nat
  backup_eligible : Bool
  backup_status : Bool
  transports : Option String
  deriving DecidableEq, Repr

/-- An association map with string keys, used for the in-memory
challenge Map and for the R2 bucket.  JS Map.set replaces in place when
the key exists and appends otherwise. -/
def mapSet {α : Type} (m : List (String × α)) (k : String) (v : α) :
    List (String × α) :=
  if m.any (fun p => p.1 = k) then
    m.map (fun p => if p.1 = k then (k, v) else p)
  else m ++ [(k, v)]

/-- Map.get as an Option. -/
def mapGet {α : Type} (m : List (String × α)) (k : String) : Option α :=
  (m.find? (fun p => p.1 = k)).map (·.2)

/-- Map.delete. -/
def mapDelete {α : Type} (m : List (String × α)) (k : String) :
    List (String × α) :=
  m.filter (fun p => p.1 ≠ k)

/-- The whole server-side state: the D1 tables, the autoincrement
counter, the in-memory challenge Map of index.ts (keyed by username
alone), and the R2 bucket. -/
structure ServerState where
  users : List UserRow
  nextUserId : Nat
  passkeys : List PasskeyRow
  challenges : List (String × String)
  r2 : List (String × List Nat)
  deriving DecidableEq

/-- db.ts getUser: SELECT * FROM users WHERE username = ?. -/
def getUser (users : List UserRow) (username : String) : Option UserRow :=
  users.find? (fun u => u.username = username)

/-- db.ts createUser: INSERT INTO users (username) VALUES (?); the new
row takes the next autoincrement id and NULL optional columns. -/
def createUser (st : ServerState) (username : String) : ServerState × UserRow :=
  let row : UserRow :=
    { id := st.nextUserId, username := username, prf_salt := none
    , encrypted_blob_key := none, blob_nonce := none }
  ({ st with users := st.users ++ [row], nextUserId := st.nextUserId + 1 }, row)

/-- db.ts getUserPasskeys: SELECT * FROM passkeys WHERE internal_user_id = ?. -/
def getUserPasskeys (passkeys : List PasskeyRow) (userId : Nat) : List PasskeyRow :=
  passkeys.filter (fun p => p.internal_user_id = userId)

/-- db.ts getPasskeyById joined with its owning user row: SELECT by
cred_id, then SELECT the user by internal_user_id; undefined when
either row is missing. -/
def getPasskeyById (st : ServerState) (credId : String) :
    Option (PasskeyRow × UserRow) :=
  match st.passkeys.find? (fun p => p.cred_id = credId) with
  | none => none
  | some p =>
      match st.users.find? (fun u => u.id = p.internal_user_id) with
      | none => none
      | some u => some (p, u)

/-- db.ts savePasskey: INSERT INTO passkeys. -/
def savePasskey (passkeys : List PasskeyRow) (p : PasskeyRow) : List PasskeyRow :=
  passkeys ++ [p]

/-- db.ts updatePasskeyCounter: UPDATE passkeys SET counter = ? WHERE
cred_id = ?. -/
def updatePasskeyCounter (passkeys : List PasskeyRow) (credId : String)
    (newCounter : Nat) : List PasskeyRow :=
  passkeys.map (fun p => if p.cred_id = credId then { p with counter := newCounter } else p)

/-- db.ts saveUserBlobReference: UPDATE users SET encrypted_blob_key = ?,
blob_nonce = ? WHERE id = ?. -/
def saveUserBlobReference (users : List UserRow) (userId : Nat)
    (blobKey : String) (nonce : List Char) : List UserRow :=
  users.map (fun u =>
    if u.id = userId then
      { u with encrypted_blob_key := some blobKey, blob_nonce := some nonce }
    else u)

/-- db.ts getUserBlobReference: SELECT encrypted_blob_key, blob_nonce
FROM users WHERE id = ?. -/
def getUserBlobReference (users : List UserRow) (userId : Nat) :
    Option (Option String × Option (List Char)) :=
  (users.find? (fun u => u.id = userId)).map
    (fun u => (u.encrypted_blob_key, u.blob_nonce))

/-- db.ts saveUserPrfSalt: UPDATE users SET prf_salt = ? WHERE id = ?.
The update is unconditional: it does not check whether a salt is
already set. -/
def saveUserPrfSalt (users : List UserRow) (userId : Nat)
    (prfSalt : List Char) : List UserRow :=
  users.map (fun u => if u.id = userId then { u with prf_salt := some prfSalt } else u)

/-- db.ts getUserPrfSalt: SELECT prf_salt FROM users WHERE id = ?; the
JS expression result?.prf_salt || null maps an empty string to null. -/
def getUserPrfSalt (users : List UserRow) (userId : Nat) : Option (List Char) :=
  match users.find? (fun u => u.id = userId) with
  | none => none
  | some u =>
      match u.prf_salt with
      | none => none
      | some s => if s = [] then none else some s

/-! ## The external WebAuthn verifier, modelled from the spec

The @simplewebauthn/server library is an external collaborator (spec
section 6): verifyRegistration checks the response against the expected
challenge, origin and relying-party id and yields the new credential
data; verifyAuthentication additionally receives the known credential
and must reject a non-advancing signature counter, surfaced as
CounterRegression (spec sections 4.1 and 7).  A response carries the
challenge it signed and an abstract signature-validity bit. -/
/-- The relying-party id hardcoded in index.ts. -/
def rpID : String := "localhost"

/-- The expected origin in index.ts, the string http with rpID and
port 5173. -/
def expectedOrigin : String := "http://localhost:5173"

/-- The registration ceremony response as the verifier reads it. -/
structure RegistrationResponse where
  challenge : String
  respOrigin : String
  respRpId : String
  sigValid : Bool
  credId : String
  publicKey : List Nat
  counter : Nat
  userHandle : Option String
  transports : Option String
  deviceType : String
  backedUp : Bool
  deriving DecidableEq, Repr

/-- The credential data the verifier extracts on success. -/
structure RegistrationInfoM where
  credId : String
  publicKey : List Nat
  counter : Nat
  deviceType : String
  backedUp : Bool
  deriving DecidableEq, Repr

/-- The result object of verifyRegistrationResponse. -/
structure RegVerification where
  verified : Bool
  registrationInfo : Option RegistrationInfoM
  deriving DecidableEq, Repr

/-- Modelled from the spec: verifyRegistrationResponse of the external
verifier; verified exactly when the response signed the expected
challenge for the expected origin and relying-party id and the
attestation signature is valid. -/
def verifyRegistrationResponseM (resp : RegistrationResponse)
    (expectedChallenge exOrigin exRpId : String) : RegVerification :=
  if resp.challenge = expectedChallenge ∧ resp.respOrigin = exOrigin ∧
     resp.respRpId = exRpId ∧ resp.sigValid then
    { verified := true
    , registrationInfo := some
        { credId := resp.credId, publicKey := resp.publicKey
        , counter := resp.counter, deviceType := resp.deviceType
        , backedUp := resp.backedUp } }
  else { verified := false, registrationInfo := none }

/-- The authentication ceremony response as the verifier reads it:
response.id is the credential id, authCounter the counter reported in
the authenticator data, prfFirst the PRF extension output the client
sees in clientExtensionResults. -/
structure AuthenticationResponse where
  id : String
  challenge : String
  respOrigin : String
  respRpId : String
  sigValid : Bool
  authCounter : Nat
  prfFirst : Option (List Nat)
  deriving DecidableEq, Repr

/-- The result object of verifyAuthenticationResponse. -/
structure AuthVerification where
  verified : Bool
  newCounter : Nat
  deriving DecidableEq, Repr

/-- Modelled from the spec: verifyAuthenticationResponse of the
external verifier.  A mismatched challenge, origin, relying-party id or
signature is the normal verified-false outcome; a reported counter that
does not advance (unless both counters are zero, the no-counter case)
is rejected with the distinct CounterRegression error, which the
endpoint surfaces through its catch branch. -/
def verifyAuthenticationResponseM (resp : AuthenticationResponse)
    (expectedChallenge exOrigin exRpId : String) (cred : PasskeyRow) :
    Except String AuthVerification :=
  if resp.challenge = expectedChallenge ∧ resp.respOrigin = exOrigin ∧
     resp.respRpId = exRpId ∧ resp.sigValid then
    if resp.authCounter > cred.counter ∨ (resp.authCounter = 0 ∧ cred.counter = 0) then
      .ok { verified := true, newCounter := resp.authCounter }
    else .error "CounterRegression"
  else .ok { verified := false, newCounter := cred.counter }

/-! ## The Hono endpoints (server/src/index.ts)

Each endpoint is a function of the server state and the request body;
the challenge the options-generating library draws is an explicit
input.  Response bodies are per-endpoint result types mirroring the
JSON the handler returns, with one constructor per return site. -/
/-- The ceremony options index.ts returns for registration. -/
structure RegOptions where
  challenge : String
  excludeCredentialIds : List String
  prfEnabled : Bool
  deriving DecidableEq, Repr

/-- POST /generate-registration-options: look up or create the user,
collect the exclusion list, enable the PRF extension, store the
challenge in the Map under the username, return the options. -/
def generateRegistrationOptionsEndpoint (st : ServerState) (username : String)
    (challenge : String) : ServerState × RegOptions :=
  let stUser : ServerState × UserRow :=
    match getUser st.users username with
    | some u => (st, u)
    | none => createUser st username
  let st1 := stUser.1
  let user := stUser.2
  let userPasskeys := getUserPasskeys st1.passkeys user.id
  let options : RegOptions :=
    { challenge := challenge
    , excludeCredentialIds := userPasskeys.map (fun p => p.cred_id)
    , prfEnabled := true }
  ({ st1 with challenges := mapSet st1.challenges username challenge }, options)

/-- The JS expression a || b over an optional string: b when a is
null, undefined or the empty string. -/
def jsOrString (a : Option String) (b : String) : String :=
  match a with
  | some s => if s = "" then b else s
  | none => b

/-- The JSON outcomes of POST /verify-registration. -/
inductive VerifyRegResult where
  | errorChallengeNotFound
  | errorUserNotFound
  | verifiedTrue
  | verifiedFalse
  | errorCaught (msg : String)
  deriving DecidableEq, Repr

/-- POST /verify-registration: require a pending challenge for the
username and an existing user, delegate to the external verifier, and
only on verified success save the passkey and delete the challenge. -/
def verifyRegistrationEndpoint (st : ServerState) (username : String)
    (resp : RegistrationResponse) : ServerState × VerifyRegResult :=
  match mapGet st.challenges username with
  | none => (st, .errorChallengeNotFound)
  | some expectedChallenge =>
      match getUser st.users username with
      | none => (st, .errorUserNotFound)
      | some user =>
          let verification := verifyRegistrationResponseM resp expectedChallenge expectedOrigin rpID
          match verification.registrationInfo with
          | some info =>
              if verification.verified then
                let newPasskey : PasskeyRow :=
                  { cred_id := info.credId
                  , cred_public_key := info.publicKey
                  , internal_user_id := user.id
                  , webauthn_user_id := jsOrString resp.userHandle (toString user.id)
                  , counter := info.counter
                  , backup_eligible := info.deviceType = "multiDevice"
                  , backup_status := info.backedUp
                  , transports := resp.transports }
                ({ st with
                    passkeys := savePasskey st.passkeys newPasskey
                  , challenges := mapDelete st.challenges username }, .verifiedTrue)
              else (st, .verifiedFalse)
          | none => (st, .verifiedFalse)

/-- The ceremony options index.ts returns for authentication. -/
structure AuthOptions where
  challenge : String
  allowCredentialIds : List String
  prfEnabled : Bool
  deriving DecidableEq, Repr

/-- The JSON outcomes of POST /generate-authentication-options. -/
inductive AuthOptionsResult where
  | ok (options : AuthOptions)
  | errorUserNotFound
  | errorNoPasskeys
  deriving DecidableEq, Repr

/-- POST /generate-authentication-options: require an existing user
with at least one passkey, build the allow list, enable the PRF
extension, store the challenge under the username. -/
def generateAuthenticationOptionsEndpoint (st : ServerState) (username : String)
    (challenge : String) : ServerState × AuthOptionsResult :=
  match getUser st.users username with
  | none => (st, .errorUserNotFound)
  | some user =>
      let userPasskeys := getUserPasskeys st.passkeys user.id
      if userPasskeys.length = 0 then (st, .errorNoPasskeys)
      else
        ({ st with challenges := mapSet st.challenges username challenge },
         .ok { challenge := challenge
             , allowCredentialIds := userPasskeys.map (fun p => p.cred_id)
             , prfEnabled := true })

/-- The JSON outcomes of POST /verify-authentication. -/
inductive VerifyAuthResult where
  | errorChallengeNotFound
  | errorUserNotFound
  | errorPasskeyNotFound
  | verifiedTrue (user : UserRow)
  | verifiedFalse
  | errorCaught (msg : String)
  deriving DecidableEq, Repr

/-- POST /verify-authentication: require a pending challenge and an
existing user; look the credential up solely by response.id; delegate
to the external verifier with the stored public key and counter; on
success update that credential row to the verifier-reported counter,
delete the challenge, and return the credential owner row. -/
def verifyAuthenticationEndpoint (st : ServerState) (username : String)
    (resp : AuthenticationResponse) : ServerState × VerifyAuthResult :=
  match mapGet st.challenges username with
  | none => (st, .errorChallengeNotFound)
  | some expectedChallenge =>
      match getUser st.users username with
      | none => (st, .errorUserNotFound)
      | some _user =>
          match getPasskeyById st resp.id with
          | none => (st, .errorPasskeyNotFound)
          | some (passkey, passkeyUser) =>
              match verifyAuthenticationResponseM resp expectedChallenge expectedOrigin rpID passkey with
              | .error msg => (st, .errorCaught msg)
              | .ok v =>
                  if v.verified then
                    ({ st with
                        passkeys := updatePasskeyCounter st.passkeys passkey.cred_id v.newCounter
                      , challenges := mapDelete st.challenges username },
                     .verifiedTrue passkeyUser)
                  else (st, .verifiedFalse)

/-- The R2 object key index.ts builds for the single blob of a user. -/
def userBlobKey (userId : Nat) : String :=
  "user-" ++ toString userId ++ "-blob"

/-- The JSON outcomes of POST /store-blob. -/
inductive StoreBlobResult where
  | ok (blobKey : String)
  | errorUserNotFound
  deriving DecidableEq, Repr

/-- POST /store-blob: decode the base64 ciphertext, put it in R2 under
the key derived from the user id, then save the reference row. -/
def storeBlobEndpoint (st : ServerState) (username : String)
    (encryptedBlob : List Char) (nonce : List Char) : ServerState × StoreBlobResult :=
  match getUser st.users username with
  | none => (st, .errorUserNotFound)
  | some user =>
      let blobKey := userBlobKey user.id
      let blobData := atobList encryptedBlob
      let st1 := { st with r2 := mapSet st.r2 blobKey blobData }
      ({ st1 with users := saveUserBlobReference st1.users user.id blobKey nonce },
       .ok blobKey)

/-- The JSON outcomes of POST /retrieve-blob. -/
inductive RetrieveBlobResult where
  | ok (encryptedBlob : List Char) (nonce : Option (List Char))
  | errorUserNotFound
  | errorNoBlob
  | errorBlobNotFound
  deriving DecidableEq, Repr

/-- POST /retrieve-blob: read-only; look up the user, then the blob
reference (absent or falsy key means no blob), then the R2 object, and
return base64 ciphertext together with the stored nonce. -/
def retrieveBlobEndpoint (st : ServerState) (username : String) : RetrieveBlobResult :=
  match getUser st.users username with
  | none => .errorUserNotFound
  | some user =>
      match getUserBlobReference st.users user.id with
      | none => .errorNoBlob
      | some blobRef =>
          match blobRef.1 with
          | none => .errorNoBlob
          | some key =>
              if key = "" then .errorNoBlob
              else
                match mapGet st.r2 key with
                | none => .errorBlobNotFound
                | some bytes => .ok (btoaList bytes) blobRef.2

/-- The JSON outcomes of POST /save-prf-salt. -/
inductive SaveSaltResult where
  | ok
  | errorUserNotFound
  deriving DecidableEq, Repr

/-- POST /save-prf-salt: look up the user and write the salt column,
unconditionally overwriting whatever was stored. -/
def savePrfSaltEndpoint (st : ServerState) (username : String)
    (prfSalt : List Char) : ServerState × SaveSaltResult :=
  match getUser st.users username with
  | none => (st, .errorUserNotFound)
  | some user =>
      ({ st with users := saveUserPrfSalt st.users user.id prfSalt }, .ok)

/-- The JSON outcomes of POST /get-prf-salt. -/
inductive GetSaltResult where
  | ok (prfSalt : Option (List Char))
  | errorUserNotFound
  deriving DecidableEq, Repr

/-- POST /get-prf-salt: read-only salt lookup. -/
def getPrfSaltEndpoint (st : ServerState) (username : String) : GetSaltResult :=
  match getUser st.users username with
  | none => .errorUserNotFound
  | some user => .ok (getUserPrfSalt st.users user.id)

/-- The JSON outcomes of POST /check-blob. -/
inductive CheckBlobResult where
  | ok (hasBlob : Bool)
  | errorUserNotFound
  deriving DecidableEq, Repr

/-- POST /check-blob: read-only; true exactly when the reference row
exists with a truthy (non-null, non-empty) blob key. -/
def checkBlobEndpoint (st : ServerState) (username : String) : CheckBlobResult :=
  match getUser st.users username with
  | none => .errorUserNotFound
  | some user =>
      match getUserBlobReference st.users user.id with
      | none => .ok false
      | some blobRef =>
          match blobRef.1 with
          | none => .ok false
          | some key => .ok (key ≠ "")

/-! ## The client flows (client/src/App.tsx)

Each handler is a function of the React component state, the server
state, the CSPRNG tape for this call, and the externally produced
pieces: the challenge the server library draws and the authenticator
response startRegistration / startAuthentication returns.  The user
message is carried as its TextEncoder bytes. -/
/-- The React component state of App.tsx (the fields the protocol
reads and writes). -/
structure ClientState where
  username : String
  isAuthenticated : Bool
  prfOutput : Option (List Nat)
  hasBlob : Bool
  prfSalt : Option (List Nat)
  userMessage : List Nat
  encryptedMessage : List Char
  decryptedMessage : List Nat
  deriving DecidableEq, Repr

/-- App.tsx handleRegister: reuse the salt in state or generate a fresh
one, fetch registration options, add the PRF eval extension with the
salt, run the authenticator, verify with the server, and only after a
verified registration save the base64url salt through /save-prf-salt. -/
def handleRegister (client : ClientState) (st : ServerState) (tape : List Nat)
    (serverChallenge : String) (authResp : RegistrationResponse) :
    ClientState × ServerState :=
  let currentPrfSalt :=
    match client.prfSalt with
    | some s => s
    | none => generatePrfSalt tape
  let client1 := { client with prfSalt := some currentPrfSalt }
  let st1 := (generateRegistrationOptionsEndpoint st client.username serverChallenge).1
  let verify := verifyRegistrationEndpoint st1 client.username authResp
  match verify.2 with
  | .verifiedTrue =>
      let prfSaltBase64 := uint8ArrayToBase64Url currentPrfSalt
      ((client1), (savePrfSaltEndpoint verify.1 client.username prfSaltBase64).1)
  | _ => (client1, verify.1)

/-- App.tsx handleAuthenticate: fetch the stored salt (falling back to
a fresh one kept only in component state when the response holds no
salt), fetch authentication options, add the PRF eval extension with
the salt, run the authenticator, verify with the server, and on success
record the PRF output and the blob-existence flag. -/
def handleAuthenticate (client : ClientState) (st : ServerState) (tape : List Nat)
    (serverChallenge : String) (authResp : AuthenticationResponse) :
    ClientState × ServerState :=
  let currentPrfSalt :=
    match getPrfSaltEndpoint st client.username with
    | .ok (some s) => base64UrlToUint8Array s
    | _ => generatePrfSalt tape
  let client1 := { client with prfSalt := some currentPrfSalt }
  let opts := generateAuthenticationOptionsEndpoint st client.username serverChallenge
  match opts.2 with
  | .ok _ =>
      let verify := verifyAuthenticationEndpoint opts.1 client.username authResp
      match verify.2 with
      | .verifiedTrue _ =>
          let client2 := { client1 with isAuthenticated := true }
          match authResp.prfFirst with
          | some prfResult =>
              let client3 := { client2 with prfOutput := some prfResult }
              match checkBlobEndpoint verify.1 client.username with
              | .ok true => ({ client3 with hasBlob := true }, verify.1)
              | _ => (client3, verify.1)
          | none => (client2, verify.1)
      | _ => (client1, verify.1)
  | _ => (client1, opts.1)

/-- App.tsx handleEncryptAndStore: require a PRF output and a nonempty
message; draw a fresh nonce, derive the key from the PRF output with
the default HKDF salt, AES-GCM encrypt, and ship base64 ciphertext and
base64url nonce to /store-blob. -/
def handleEncryptAndStore (client : ClientState) (st : ServerState)
    (tape : List Nat) : ClientState × ServerState :=
  match client.prfOutput with
  | none => (client, st)
  | some prf =>
      if client.userMessage = [] then (client, st)
      else
        let messageBytes := client.userMessage
        let nonce := generateNonce tape
        let encryptionKey := deriveEncryptionKey prf defaultHkdfSalt
        let encryptedData := encryptData encryptionKey messageBytes nonce
        let encryptedBase64 := btoaList encryptedData
        let nonceBase64 := uint8ArrayToBase64Url nonce
        let client1 := { client with encryptedMessage := encryptedBase64 }
        let store := storeBlobEndpoint st client.username encryptedBase64 nonceBase64
        match store.2 with
        | .ok _ => ({ client1 with hasBlob := true }, store.1)
        | _ => (client1, store.1)

/-- App.tsx handleRetrieveAndDecrypt: require a PRF output; fetch the
blob and nonce from /retrieve-blob, decode both, derive the same key
from the PRF output with the default HKDF salt, and AES-GCM decrypt. -/
def handleRetrieveAndDecrypt (client : ClientState) (st : ServerState) :
    ClientState :=
  match client.prfOutput with
  | none => client
  | some prf =>
      match retrieveBlobEndpoint st client.username with
      | .ok encryptedBlob (some nonceStr) =>
          let encryptedData := atobList encryptedBlob
          let nonceArray := base64UrlToUint8Array nonceStr
          let encryptionKey := deriveEncryptionKey prf defaultHkdfSalt
          match decryptData encryptionKey encryptedData nonceArray with
          | some decryptedData => { client with decryptedMessage := decryptedData }
          | none => client
      | _ => client

/-- The schema declares users.id as the primary key and users.username
as unique; database states reachable through the endpoints satisfy
both. -/
def usersWellFormed (users : List UserRow) : Prop :=
  users.Pairwise (fun a b => a.id ≠ b.id ∧ a.username ≠ b.username)

/-! ## Fixtures -/
/-- A user who registered earlier: a persisted PRF salt and a stored
encrypted blob. -/
def exAliceWithSalt : UserRow :=
  { id := 1, username := "alice", prf_salt := some "b2xkc2FsdA".toList
  , encrypted_blob_key := some "user-1-blob", blob_nonce := some "bm9uY2U".toList }

/-- Server state holding that user and her blob object. -/
def exStateWithSalt : ServerState :=
  { users := [exAliceWithSalt], nextUserId := 2, passkeys := []
  , challenges := [], r2 := [("user-1-blob", [1, 2, 3])] }

/-- A fresh browser session for alice: no component state yet. -/
def exFreshClient : ClientState :=
  { username := "alice", isAuthenticated := false, prfOutput := none, hasBlob := false
  , prfSalt := none, userMessage := [], encryptedMessage := [], decryptedMessage := [] }

/-- A valid registration response signing the challenge chalR. -/
def exRegResponse : RegistrationResponse :=
  { challenge := "chalR", respOrigin := "http://localhost:5173", respRpId := "localhost"
  , sigValid := true, credId := "credNew", publicKey := [4, 5], counter := 0
  , userHandle := none, transports := none, deviceType := "singleDevice", backedUp := false }

/-- A user with a registered passkey and nothing else. -/
def exAlicePlain : UserRow :=
  { id := 1, username := "alice", prf_salt := none
  , encrypted_blob_key := none, blob_nonce := none }

/-- The passkey of exAlicePlain. -/
def exAlicePasskey : PasskeyRow :=
  { cred_id := "credA", cred_public_key := [1, 2, 3], internal_user_id := 1
  , webauthn_user_id := "1", counter := 5, backup_eligible := false
  , backup_status := false, transports := none }

/-- Server state with that user and passkey and no pending challenge. -/
def exStatePlain : ServerState :=
  { users := [exAlicePlain], nextUserId := 2, passkeys := [exAlicePasskey]
  , challenges := [], r2 := [] }

/-- The same state with a pending challenge chal1 for alice. -/
def exStateChal : ServerState :=
  { exStatePlain with challenges := [("alice", "chal1")] }

/-- A client session for alice holding a PRF output. -/
def exPrfClient : ClientState :=
  { username := "alice", isAuthenticated := true, prfOutput := some [10, 20, 30]
  , hasBlob := false, prfSalt := none, userMessage := [], encryptedMessage := []
  , decryptedMessage := [] }

/-- A second user. -/
def exBob : UserRow :=
  { id := 2, username := "bob", prf_salt := none
  , encrypted_blob_key := none, blob_nonce := none }

/-- A passkey owned by exBob. -/
def exBobPasskey : PasskeyRow :=
  { cred_id := "credB", cred_public_key := [7], internal_user_id := 2
  , webauthn_user_id := "2", counter := 3, backup_eligible := false
  , backup_status := false, transports := none }

/-- Alice has the pending challenge chalX, bob owns credB. -/
def exCrossState : ServerState :=
  { users := [exAlicePlain, exBob], nextUserId := 3
  , passkeys := [exAlicePasskey, exBobPasskey]
  , challenges := [("alice", "chalX")], r2 := [] }

/-- A valid authentication response presenting bob's credential against
the challenge pending for alice. -/
def exCrossResp : AuthenticationResponse :=
  { id := "credB", challenge := "chalX", respOrigin := "http://localhost:5173"
  , respRpId := "localhost", sigValid := true, authCounter := 4, prfFirst := none }

/-- A valid authentication response for alice whose reported counter 3
is lower than the stored counter 5 of credA. -/
def exRegressResp : AuthenticationResponse :=
  { id := "credA", challenge := "chal1", respOrigin := "http://localhost:5173"
  , respRpId := "localhost", sigValid := true, authCounter := 3, prfFirst := none }

theorem b64val_b64char {n : Nat} (h : n < 64) : b64val (b64char n) = n := by
  have : ∀ m < 64, b64val (b64char m) = m := by decide
  exact this n h

theorem b64char_ne_pad {n : Nat} (h : n < 64) : b64char n ≠ '=' := by
  have : ∀ m < 64, b64char m ≠ '=' := by decide
  exact this n h

/-- Sextets produced by the encoder from in-range bytes are below 64. -/
theorem btoaSextets_bound : ∀ bs : List Nat, (∀ b ∈ bs, b < 256) →
    ∀ s ∈ btoaSextets bs, s < 64 := by
  intro bs
  induction bs using btoaSextets.induct with
  | case1 => intro _ s hs; simp [btoaSextets] at hs
  | case2 b0 =>
      intro h s hs
      have hb0 := h b0 (by simp)
      simp [btoaSextets] at hs
      rcases hs with h1 | h1 <;> omega
  | case3 b0 b1 =>
      intro h s hs
      have hb0 := h b0 (by simp)
      have hb1 := h b1 (by simp)
      simp [btoaSextets] at hs
      have : b0 % 4 < 4 := Nat.mod_lt _ (by omega)
      have : b1 % 16 < 16 := Nat.mod_lt _ (by omega)
      have : b1 / 16 < 16 := by omega
      rcases hs with h1 | h1 | h1 <;> omega
  | case4 b0 b1 b2 rest ih =>
      intro h s hs
      have hb0 := h b0 (by simp)
      have hb1 := h b1 (by simp)
      have hb2 := h b2 (by simp)
      simp [btoaSextets] at hs
      have : b0 % 4 < 4 := Nat.mod_lt _ (by omega)
      have : b1 % 16 < 16 := Nat.mod_lt _ (by omega)
      have : b2 % 64 < 64 := Nat.mod_lt _ (by omega)
      rcases hs with h1 | h1 | h1 | h1 | h1
      · omega
      · omega
      · omega
      · omega
      · exact ih (fun b hb => h b (by simp [hb])) s h1

/-- Stripping padding from the encoder output and reading sextet values
yields exactly the sextet stream. -/
theorem btoaList_strip (bs : List Nat) (h : ∀ b ∈ bs, b < 256) :
    ((btoaList bs).filter (· ≠ '=')).map b64val = btoaSextets bs := by
  induction bs using btoaList.induct with
  | case1 => simp [btoaList, btoaSextets]
  | case2 b0 =>
      have hb0 := h b0 (by simp)
      have h1 : b0 / 4 < 64 := by omega
      have h2 : b0 % 4 * 16 < 64 := by
        have : b0 % 4 < 4 := Nat.mod_lt _ (by omega)
        omega
      simp [btoaList, btoaSextets, List.filter, b64char_ne_pad h1, b64char_ne_pad h2,
        b64val_b64char h1, b64val_b64char h2]
  | case3 b0 b1 =>
      have hb0 := h b0 (by simp)
      have hb1 := h b1 (by simp)
      have h1 : b0 / 4 < 64 := by omega
      have h2 : b0 % 4 * 16 + b1 / 16 < 64 := by
        have : b0 % 4 < 4 := Nat.mod_lt _ (by omega)
        omega
      have h3 : b1 % 16 * 4 < 64 := by
        have : b1 % 16 < 16 := Nat.mod_lt _ (by omega)
        omega
      simp [btoaList, btoaSextets, List.filter, b64char_ne_pad h1, b64char_ne_pad h2,
        b64char_ne_pad h3, b64val_b64char h1, b64val_b64char h2, b64val_b64char h3]
  | case4 b0 b1 b2 rest ih =>
      have hb0 := h b0 (by simp)
      have hb1 := h b1 (by simp)
      have hb2 := h b2 (by simp)
      have h1 : b0 / 4 < 64 := by omega
      have h2 : b0 % 4 * 16 + b1 / 16 < 64 := by
        have : b0 % 4 < 4 := Nat.mod_lt _ (by omega)
        omega
      have h3 : b1 % 16 * 4 + b2 / 64 < 64 := by
        have : b1 % 16 < 16 := Nat.mod_lt _ (by omega)
        omega
      have h4 : b2 % 64 < 64 := Nat.mod_lt _ (by omega)
      have ih' := ih (fun b hb => h b (by simp [hb]))
      simp [btoaList, btoaSextets, List.filter, b64char_ne_pad h1, b64char_ne_pad h2,
        b64char_ne_pad h3, b64char_ne_pad h4, b64val_b64char h1, b64val_b64char h2,
        b64val_b64char h3, b64val_b64char h4]
      simpa using ih'

/-- Decoding the sextet stream recovers the bytes. -/
theorem b64decode_btoaSextets (bs : List Nat) (h : ∀ b ∈ bs, b < 256) :
    b64decodeSextets (btoaSextets bs) = bs := by
  induction bs using btoaSextets.induct with
  | case1 => simp [btoaSextets, b64decodeSextets]
  | case2 b0 =>
      have hb0 := h b0 (by simp)
      simp only [btoaSextets, b64decodeSextets]
      congr 1
      omega
  | case3 b0 b1 =>
      have hb0 := h b0 (by simp)
      have hb1 := h b1 (by simp)
      simp only [btoaSextets, b64decodeSextets]
      congr 1
      · omega
      · congr 1
        omega
  | case4 b0 b1 b2 rest ih =>
      have hb0 := h b0 (by simp)
      have hb1 := h b1 (by simp)
      have hb2 := h b2 (by simp)
      have ih' := ih (fun b hb => h b (by simp [hb]))
      simp only [btoaSextets, b64decodeSextets, ih']
      congr 1
      · omega
      · congr 1
        · omega
        · congr 1
          omega

/-- atob of btoa is the identity on byte lists. -/
theorem atob_btoa (bs : List Nat) (h : ∀ b ∈ bs, b < 256) :
    atobList (btoaList bs) = bs := by
  unfold atobList
  rw [btoaList_strip bs h, b64decode_btoaSextets bs h]

/-- Every character btoa emits is in the base64 alphabet or is padding. -/
theorem btoaList_chars (bs : List Nat) (h : ∀ b ∈ bs, b < 256) :
    ∀ c ∈ btoaList bs, c ∈ b64chars ∨ c = '=' := by
  have hmem : ∀ n < 64, b64char n ∈ b64chars := by decide
  induction bs using btoaList.induct with
  | case1 => simp [btoaList]
  | case2 b0 =>
      have hb0 := h b0 (by simp)
      intro c hc
      simp [btoaList] at hc
      rcases hc with h1 | h1 | h1 <;> subst h1
      · exact Or.inl (hmem _ (by omega))
      · exact Or.inl (hmem _ (by have : b0 % 4 < 4 := Nat.mod_lt _ (by omega); omega))
      · exact Or.inr rfl
  | case3 b0 b1 =>
      have hb0 := h b0 (by simp)
      have hb1 := h b1 (by simp)
      intro c hc
      simp [btoaList] at hc
      have e1 : b0 % 4 < 4 := Nat.mod_lt _ (by omega)
      have e2 : b1 % 16 < 16 := Nat.mod_lt _ (by omega)
      rcases hc with h1 | h1 | h1 | h1 <;> subst h1
      · exact Or.inl (hmem _ (by omega))
      · exact Or.inl (hmem _ (by omega))
      · exact Or.inl (hmem _ (by omega))
      · exact Or.inr rfl
  | case4 b0 b1 b2 rest ih =>
      have hb0 := h b0 (by simp)
      have hb1 := h b1 (by simp)
      have hb2 := h b2 (by simp)
      intro c hc
      simp [btoaList] at hc
      have e1 : b0 % 4 < 4 := Nat.mod_lt _ (by omega)
      have e2 : b1 % 16 < 16 := Nat.mod_lt _ (by omega)
      have e3 : b2 % 64 < 64 := Nat.mod_lt _ (by omega)
      rcases hc with h1 | h1 | h1 | h1 | h1
      · exact h1 ▸ Or.inl (hmem _ (by omega))
      · exact h1 ▸ Or.inl (hmem _ (by omega))
      · exact h1 ▸ Or.inl (hmem _ (by omega))
      · exact h1 ▸ Or.inl (hmem _ (by omega))
      · exact ih (fun b hb => h b (by simp [hb])) c h1

/-- Per-character facts of the URL-safe replacement on the alphabet. -/
theorem b64url_char_facts :
    ∀ c ∈ b64chars, b64urlUnrepl (b64urlRepl c) = c ∧ b64urlRepl c ≠ '=' := by
  decide

/-- atob ignores appended padding characters. -/
theorem atobList_append_pad (s : List Char) (k : Nat) :
    atobList (s ++ List.replicate k '=') = atobList s := by
  unfold atobList
  congr 1
  rw [List.filter_append]
  have : (List.replicate k '=').filter (· ≠ '=') = [] := by
    induction k with
    | zero => simp
    | succ n ihn => simp [List.replicate_succ, List.filter_cons, ihn]
  simp [this]

/-- The URL-safe codec round-trips on byte lists. -/
theorem base64url_roundtrip (bs : List Nat) (h : ∀ b ∈ bs, b < 256) :
    base64UrlToUint8Array (uint8ArrayToBase64Url bs) = bs := by
  have hchars := btoaList_chars bs h
  have key : (uint8ArrayToBase64Url bs).map b64urlUnrepl =
      (btoaList bs).filter (· ≠ '=') := by
    unfold uint8ArrayToBase64Url
    revert hchars
    generalize btoaList bs = t
    intro hchars
    induction t with
    | nil => simp
    | cons c rest ihc =>
        have hc := hchars c (by simp)
        have hrest : ∀ x ∈ rest, x ∈ b64chars ∨ x = '=' :=
          fun x hx => hchars x (List.mem_cons_of_mem _ hx)
        rcases hc with hc | hc
        · obtain ⟨h1, h2⟩ := b64url_char_facts c hc
          simp only [List.map_cons, List.filter_cons]
          have hne : (decide (b64urlRepl c ≠ '=')) = true := by
            simp [h2]
          have hcne : c ≠ '=' := by
            intro hcontra
            subst hcontra
            revert hc
            decide
          simp [hne, hcne, h1]
          simpa using ihc hrest
        · subst hc
          simp only [List.map_cons, List.filter_cons]
          have : b64urlRepl '=' = '=' := by decide
          simp [this]
          simpa using ihc hrest
  unfold base64UrlToUint8Array
  simp only [key]
  rw [atobList_append_pad]
  have : atobList ((btoaList bs).filter (· ≠ '=')) = atobList (btoaList bs) := by
    unfold atobList
    rw [List.filter_filter]
    have hf : (btoaList bs).filter (fun a => decide (a ≠ '=') && decide (a ≠ '=')) =
        (btoaList bs).filter (· ≠ '=') :=
      List.filter_congr (fun a _ => by simp)
    rw [hf]
  rw [this, atob_btoa bs h]

theorem compressStep_length (st : List Nat) (kw : Nat × Nat) :
    (compressStep st kw).length = st.length := by
  unfold compressStep
  split <;> simp_all

theorem foldl_compressStep_length (l : List (Nat × Nat)) (st : List Nat) :
    (l.foldl compressStep st).length = st.length := by
  induction l generalizing st with
  | nil => rfl
  | cons x xs ih => rw [List.foldl_cons, ih, compressStep_length]

theorem sha256Block_length (h block : List Nat) (hl : h.length = 8) :
    (sha256Block h block).length = 8 := by
  unfold sha256Block
  rw [List.length_map, List.length_zip, foldl_compressStep_length, hl]
  simp

theorem foldl_sha256Block_length (blocks : List (List Nat)) (h : List Nat)
    (hl : h.length = 8) : (blocks.foldl sha256Block h).length = 8 := by
  induction blocks generalizing h with
  | nil => exact hl
  | cons b bs ih => exact ih _ (sha256Block_length _ _ hl)

theorem wordsToBytes_length (ws : List Nat) :
    (wordsToBytes ws).length = 4 * ws.length := by
  induction ws with
  | nil => rfl
  | cons w rest ih => simp [wordsToBytes, ih]; omega

/-- A SHA-256 digest is 32 bytes for every input. -/
theorem sha256_length (msg : List Nat) : (sha256 msg).length = 32 := by
  unfold sha256
  rw [wordsToBytes_length, foldl_sha256Block_length _ _ (by rfl)]

/-- An HMAC-SHA256 tag is 32 bytes for every key and message. -/
theorem hmacSha256_length (key msg : List Nat) :
    (hmacSha256 key msg).length = 32 := by
  unfold hmacSha256
  exact sha256_length _

theorem hkdfBlocks_length (prk info : List Nat) (prev ctrs : List Nat) :
    (hkdfBlocks prk info prev ctrs).length = 32 * ctrs.length := by
  induction ctrs generalizing prev with
  | nil => rfl
  | cons i rest ih =>
      simp [hkdfBlocks, hmacSha256_length, ih]
      omega

/-- HKDF-SHA256 output has exactly the requested length, whatever the
lengths of the inputs. -/
theorem hkdfSha256_length (salt ikm info : List Nat) (len : Nat) :
    (hkdfSha256 salt ikm info len).length = len := by
  unfold hkdfSha256
  rw [List.length_take, hkdfBlocks_length]
  simp only [List.length_map, List.length_range]
  omega

theorem xorStream_length (key nonce : List Nat) (i : Nat) (l : List Nat) :
    (xorStream key nonce i l).length = l.length := by
  induction l generalizing i with
  | nil => rfl
  | cons b rest ih => simp [xorStream, ih]

theorem xorStream_involutive (key nonce : List Nat) (i : Nat) (l : List Nat) :
    xorStream key nonce i (xorStream key nonce i l) = l := by
  induction l generalizing i with
  | nil => rfl
  | cons b rest ih =>
      simp [xorStream, ih, Nat.xor_cancel_right]

theorem aesGcmKeystream_lt (key nonce : List Nat) (i : Nat) :
    aesGcmKeystream key nonce i < 256 :=
  Nat.mod_lt _ (by omega)

theorem xorStream_bytes_lt (key nonce : List Nat) (i : Nat) (l : List Nat)
    (h : ∀ b ∈ l, b < 256) : ∀ b ∈ xorStream key nonce i l, b < 256 := by
  induction l generalizing i with
  | nil => intro b hb; simp [xorStream] at hb
  | cons x rest ih =>
      intro b hb
      simp [xorStream] at hb
      rcases hb with hb | hb
      · subst hb
        have h1 : x < 2 ^ 8 := h x (by simp)
        have h2 : aesGcmKeystream key nonce i < 2 ^ 8 := aesGcmKeystream_lt _ _ _
        exact Nat.xor_lt_two_pow h1 h2
      · exact ih (i + 1) (fun y hy => h y (by simp [hy])) b hb

theorem aesGcmTag_length (key nonce ct : List Nat) :
    (aesGcmTag key nonce ct).length = 16 := by
  simp [aesGcmTag]

theorem aesGcmTag_bytes_lt (key nonce ct : List Nat) :
    ∀ b ∈ aesGcmTag key nonce ct, b < 256 := by
  intro b hb
  simp [aesGcmTag] at hb
  obtain ⟨i, _, hi⟩ := hb
  omega

/-- Ciphertext bytes stay below 256 when the plaintext bytes do. -/
theorem subtleAesGcmEncrypt_bytes_lt (key nonce data : List Nat)
    (h : ∀ b ∈ data, b < 256) :
    ∀ b ∈ subtleAesGcmEncrypt key nonce data, b < 256 := by
  intro b hb
  unfold subtleAesGcmEncrypt at hb
  rw [List.mem_append] at hb
  rcases hb with hb | hb
  · exact xorStream_bytes_lt _ _ _ _ h b hb
  · exact aesGcmTag_bytes_lt _ _ _ b hb

/-- AES-GCM round-trip: decrypting with the same key and nonce returns
the plaintext. -/
theorem subtleAesGcm_roundtrip (key nonce data : List Nat) :
    subtleAesGcmDecrypt key nonce (subtleAesGcmEncrypt key nonce data) = some data := by
  have hlen : (xorStream key nonce 0 data).length = data.length :=
    xorStream_length _ _ _ _
  have htag : (aesGcmTag key nonce (xorStream key nonce 0 data)).length = 16 :=
    aesGcmTag_length _ _ _
  have hct : (xorStream key nonce 0 data ++
      aesGcmTag key nonce (xorStream key nonce 0 data)).length = data.length + 16 := by
    rw [List.length_append, hlen, htag]
  simp only [subtleAesGcmEncrypt, subtleAesGcmDecrypt, hct]
  rw [if_neg (by omega)]
  have hn : data.length + 16 - 16 = (xorStream key nonce 0 data).length := by omega
  rw [hn, List.take_left, List.drop_left, if_pos rfl, xorStream_involutive]

/-! ## Store lemmas -/
theorem mapSet_cons_ne {α : Type} {p : String × α} {rest : List (String × α)}
    {k : String} {v : α} (hp : p.1 ≠ k) :
    mapSet (p :: rest) k v = p :: mapSet rest k v := by
  by_cases h : rest.any (fun q => q.1 = k) <;> simp [mapSet, hp, h]

theorem mapGet_set_self {α : Type} (m : List (String × α)) (k : String) (v : α) :
    mapGet (mapSet m k v) k = some v := by
  induction m with
  | nil => simp [mapSet, mapGet]
  | cons p rest ih =>
      by_cases hp : p.1 = k
      · simp [mapSet, mapGet, List.any_cons, hp, List.find?]
      · rw [mapSet_cons_ne hp]
        simpa [mapGet, List.find?, hp] using ih

theorem mapGet_delete_self {α : Type} (m : List (String × α)) (k : String) :
    mapGet (mapDelete m k) k = none := by
  induction m with
  | nil => rfl
  | cons p rest ih =>
      by_cases hp : p.1 = k <;>
        simp [mapDelete, mapGet, List.filter_cons, hp] at ih ⊢

theorem mapSet_length_of_isSome {α : Type} (m : List (String × α)) (k : String)
    (v : α) (h : (mapGet m k).isSome) : (mapSet m k v).length = m.length := by
  have hany : m.any (fun q => q.1 = k) = true := by
    unfold mapGet at h
    cases hf : m.find? (fun q => q.1 = k) with
    | none => rw [hf] at h; simp at h
    | some p =>
        have hmem := List.mem_of_find?_eq_some hf
        have hp := List.find?_some hf
        simp at hp
        exact List.any_eq_true.mpr ⟨p, hmem, by simp [hp]⟩
  simp [mapSet, hany]

/-- Over a map that leaves the search predicate invariant, find? returns
the image of what it returned before. -/
theorem find?_map_update {α : Type} (f : α → α) (p : α → Bool)
    (hp : ∀ x, p (f x) = p x) :
    ∀ (l : List α) (a : α), l.find? p = some a → (l.map f).find? p = some (f a) := by
  intro l
  induction l with
  | nil => intro a h; simp at h
  | cons x xs ih =>
      intro a h
      by_cases hx : p x = true
      · rw [List.find?_cons_of_pos _ hx] at h
        cases h
        rw [List.map_cons, List.find?_cons_of_pos _ (by rw [hp]; exact hx)]
      · rw [List.find?_cons_of_neg _ (by simp [hx])] at h
        rw [List.map_cons, List.find?_cons_of_neg _ (by simp [hp, hx])]
        exact ih a h

theorem usersWellFormed_save (users : List UserRow) (userId : Nat)
    (k : String) (n : List Char) (h : usersWellFormed users) :
    usersWellFormed (saveUserBlobReference users userId k n) := by
  unfold usersWellFormed saveUserBlobReference
  have hid : ∀ x : UserRow,
      (if x.id = userId then
        { x with encrypted_blob_key := some k, blob_nonce := some n } else x).id = x.id := by
    intro x
    by_cases hx : x.id = userId <;> simp [hx]
  have hname : ∀ x : UserRow,
      (if x.id = userId then
        { x with encrypted_blob_key := some k, blob_nonce := some n } else x).username =
        x.username := by
    intro x
    by_cases hx : x.id = userId <;> simp [hx]
  refine List.Pairwise.map _ (fun a b hab => ⟨?_, ?_⟩) h
  · simpa [hid] using hab.1
  · simpa [hname] using hab.2

/-- With unique ids, the row getUser found by username is also the first
row with its id. -/
theorem find_by_id_of_getUser (users : List UserRow) (un : String) (u : UserRow)
    (hwf : usersWellFormed users) (hu : getUser users un = some u) :
    users.find? (fun x => x.id = u.id) = some u := by
  unfold getUser at hu
  induction users with
  | nil => simp at hu
  | cons v rest ih =>
      rcases List.pairwise_cons.mp hwf with ⟨hv, hrest⟩
      by_cases hvn : v.username = un
      · rw [List.find?_cons_of_pos _ (by simp [hvn])] at hu
        cases hu
        rw [List.find?_cons_of_pos _ (by simp)]
      · rw [List.find?_cons_of_neg _ (by simp [hvn])] at hu
        have humem : u ∈ rest := List.mem_of_find?_eq_some hu
        have hne : v.id ≠ u.id := (hv u humem).1
        rw [List.find?_cons_of_neg _ (by simp [hne])]
        exact ih hrest hu

theorem getUser_saveUserBlobReference (users : List UserRow) (un : String)
    (u : UserRow) (k : String) (n : List Char)
    (hu : getUser users un = some u) :
    getUser (saveUserBlobReference users u.id k n) un =
      some { u with encrypted_blob_key := some k, blob_nonce := some n } := by
  unfold getUser at hu ⊢
  unfold saveUserBlobReference
  have step := find?_map_update
    (fun x => if x.id = u.id then
      { x with encrypted_blob_key := some k, blob_nonce := some n } else x)
    (fun x => x.username = un)
    (fun x => by by_cases hx : x.id = u.id <;> simp [hx]) users u hu
  rw [step]
  simp

theorem find_by_id_saveUserBlobReference (users : List UserRow) (uid : Nat)
    (k : String) (n : List Char) (u : UserRow)
    (h : users.find? (fun x => x.id = uid) = some u) :
    (saveUserBlobReference users uid k n).find? (fun x => x.id = uid) =
      some { u with encrypted_blob_key := some k, blob_nonce := some n } := by
  have hid : u.id = uid := by
    have := List.find?_some h
    simpa using this
  unfold saveUserBlobReference
  have step := find?_map_update
    (fun x => if x.id = uid then
      { x with encrypted_blob_key := some k, blob_nonce := some n } else x)
    (fun x => x.id = uid)
    (fun x => by by_cases hx : x.id = uid <;> simp [hx]) users u h
  rw [step]
  simp [hid]

theorem find_updatePasskeyCounter (passkeys : List PasskeyRow) (credId : String)
    (n : Nat) (pk : PasskeyRow)
    (h : passkeys.find? (fun p => p.cred_id = credId) = some pk) :
    (updatePasskeyCounter passkeys credId n).find? (fun p => p.cred_id = credId) =
      some { pk with counter := n } := by
  have hid : pk.cred_id = credId := by
    have := List.find?_some h
    simpa using this
  unfold updatePasskeyCounter
  have step := find?_map_update
    (fun p => if p.cred_id = credId then { p with counter := n } else p)
    (fun p => p.cred_id = credId)
    (fun p => by by_cases hp : p.cred_id = credId <;> simp [hp]) passkeys pk h
  rw [step]
  simp [hid]

/-- generate-authentication-options never touches the users table. -/
theorem generateAuthenticationOptionsEndpoint_users (st : ServerState)
    (username challenge : String) :
    (generateAuthenticationOptionsEndpoint st username challenge).1.users = st.users := by
  unfold generateAuthenticationOptionsEndpoint
  split
  · rfl
  · dsimp only
    split <;> rfl

/-- verify-authentication never touches the users table. -/
theorem verifyAuthenticationEndpoint_users (st : ServerState) (username : String)
    (resp : AuthenticationResponse) :
    (verifyAuthenticationEndpoint st username resp).1.users = st.users := by
  unfold verifyAuthenticationEndpoint
  split
  · rfl
  · split
    · rfl
    · split
      · rfl
      · split
        · rfl
        · split <;> rfl

theorem deriveEncryptionKey_material (prfOutput salt : List Nat) :
    (deriveEncryptionKey prfOutput salt).material = hkdfSha256 salt prfOutput [] 32 := by
  simp only [deriveEncryptionKey]

theorem deriveEncryptionKey_algorithm (prfOutput salt : List Nat) :
    (deriveEncryptionKey prfOutput salt).algorithm = "AES-GCM" := by
  simp only [deriveEncryptionKey]

theorem deriveEncryptionKey_keyLength (prfOutput salt : List Nat) :
    (deriveEncryptionKey prfOutput salt).keyLength = 256 := by
  simp only [deriveEncryptionKey]

theorem deriveEncryptionKey_extractable (prfOutput salt : List Nat) :
    (deriveEncryptionKey prfOutput salt).extractable = false := by
  simp only [deriveEncryptionKey]

theorem userBlobKey_ne_empty (uid : Nat) : userBlobKey uid ≠ "" := by
  unfold userBlobKey
  intro h
  have hlen := congrArg String.length h
  rw [String.length_append, String.length_append] at hlen
  have h1 : ("user-" : String).length = 5 := rfl
  have h2 : ("-blob" : String).length = 5 := rfl
  have h3 : ("" : String).length = 0 := rfl
  rw [h1, h2, h3] at hlen
  omega

theorem encryptData_bytes_lt (key : CryptoKeyM) (data nonce : List Nat)
    (h : ∀ b ∈ data, b < 256) : ∀ b ∈ encryptData key data nonce, b < 256 :=
  subtleAesGcmEncrypt_bytes_lt _ _ _ h

/-- Checked behavior of store-blob at an existing user. -/
theorem storeBlobEndpoint_spec (st : ServerState) (un : String) (u : UserRow)
    (enc non : List Char) (hu : getUser st.users un = some u) :
    storeBlobEndpoint st un enc non =
      ({ st with
           users := saveUserBlobReference st.users u.id (userBlobKey u.id) non
         , r2 := mapSet st.r2 (userBlobKey u.id) (atobList enc) },
       .ok (userBlobKey u.id)) := by
  unfold storeBlobEndpoint
  rw [hu]

/-- Checked behavior of the client encrypt-and-store flow at an
existing user with a PRF output and a nonempty message. -/
theorem handleEncryptAndStore_spec (client : ClientState) (st : ServerState)
    (tape : List Nat) (prf : List Nat) (u : UserRow)
    (hprf : client.prfOutput = some prf) (hmsg : client.userMessage ≠ [])
    (hu : getUser st.users client.username = some u) :
    handleEncryptAndStore client st tape =
      ({ client with
           encryptedMessage := btoaList (encryptData
             (deriveEncryptionKey prf defaultHkdfSalt)
             client.userMessage (generateNonce tape))
         , hasBlob := true },
       { st with
           users := saveUserBlobReference st.users u.id (userBlobKey u.id)
             (uint8ArrayToBase64Url (generateNonce tape))
         , r2 := mapSet st.r2 (userBlobKey u.id)
             (atobList (btoaList (encryptData
               (deriveEncryptionKey prf defaultHkdfSalt)
               client.userMessage (generateNonce tape)))) }) := by
  unfold handleEncryptAndStore
  rw [hprf]
  dsimp only
  rw [if_neg hmsg, storeBlobEndpoint_spec st client.username u _ _ hu]

/-- Checked behavior of retrieve-blob at a user with a stored blob. -/
theorem retrieveBlobEndpoint_spec (st : ServerState) (un : String) (u : UserRow)
    (k : String) (bytes : List Nat)
    (hwf : usersWellFormed st.users) (hu : getUser st.users un = some u)
    (hk : u.encrypted_blob_key = some k) (hne : k ≠ "")
    (hbytes : mapGet st.r2 k = some bytes) :
    retrieveBlobEndpoint st un = .ok (btoaList bytes) u.blob_nonce := by
  have hid : st.users.find? (fun x => x.id = u.id) = some u :=
    find_by_id_of_getUser st.users un u hwf hu
  have href : getUserBlobReference st.users u.id =
      some (u.encrypted_blob_key, u.blob_nonce) := by
    unfold getUserBlobReference
    rw [hid]
    rfl
  unfold retrieveBlobEndpoint
  rw [hu]
  dsimp only
  rw [href]
  dsimp only
  rw [hk]
  dsimp only
  rw [if_neg hne, hbytes]

/-- Decrypting what encryptData produced, with the same key and nonce,
returns the plaintext. -/
theorem decryptData_encryptData (key : CryptoKeyM) (data nonce : List Nat) :
    decryptData key (encryptData key data nonce) nonce = some data :=
  subtleAesGcm_roundtrip key.material nonce data

/-! ## Claims -/
/-- C1: the claim that no operation ever replaces an already-set
prf_salt fails at this input: alice has a persisted salt, yet the
save-prf-salt endpoint overwrites it unconditionally with a different
value, and a registration run from a fresh session (which generates a
fresh salt because the component state holds none) does the same after
its verified ceremony, orphaning the stored blob. -/
theorem savePrfSalt_overwrites_existing :
    (savePrfSaltEndpoint exStateWithSalt "alice" "bmV3c2FsdA".toList).2 = .ok ∧
    ((savePrfSaltEndpoint exStateWithSalt "alice" "bmV3c2FsdA".toList).1.users.map
        (fun u => u.prf_salt)) = [some "bmV3c2FsdA".toList] ∧
    exAliceWithSalt.prf_salt ≠ some "bmV3c2FsdA".toList ∧
    exAliceWithSalt.prf_salt ≠ none ∧
    ((handleRegister exFreshClient exStateWithSalt (List.range 40) "chalR"
        exRegResponse).2.users.map (fun u => u.prf_salt)) =
      [some (uint8ArrayToBase64Url ((List.range 40).take 32))] ∧
    some (uint8ArrayToBase64Url ((List.range 40).take 32)) ≠ exAliceWithSalt.prf_salt := by
  decide

/-- C2 counterexample: challenges are not bound to a ceremony kind.
With a registration challenge chalR pending for alice, a
begin-authentication call replaces it with chalA, and a
complete-registration call then succeeds by consuming chalA — the
challenge issued by begin-authentication. -/
theorem challenge_kind_confusion_cex :
    mapGet ((generateRegistrationOptionsEndpoint exStatePlain "alice" "chalR").1).challenges
      "alice" = some "chalR" ∧
    mapGet ((generateAuthenticationOptionsEndpoint
        (generateRegistrationOptionsEndpoint exStatePlain "alice" "chalR").1
        "alice" "chalA").1).challenges "alice" = some "chalA" ∧
    (verifyRegistrationEndpoint
        ((generateAuthenticationOptionsEndpoint
          (generateRegistrationOptionsEndpoint exStatePlain "alice" "chalR").1
          "alice" "chalA").1)
        "alice"
        { exRegResponse with challenge := "chalA" }).2 = .verifiedTrue := by
  decide

/-- C2 (amended): the challenge Map is keyed by username alone, with a
single slot shared by both ceremony kinds: a begin call of either kind
leaves its challenge as the one pending challenge for that username,
overwriting whatever was pending for either kind. -/
theorem challenges_single_slot_per_username (st : ServerState) (u ch : String) :
    mapGet ((generateRegistrationOptionsEndpoint st u ch).1).challenges u = some ch ∧
    (∀ r opts, generateAuthenticationOptionsEndpoint st u ch = (r, .ok opts) →
      mapGet r.challenges u = some ch) := by
  constructor
  · unfold generateRegistrationOptionsEndpoint
    exact mapGet_set_self _ _ _
  · intro r opts h
    unfold generateAuthenticationOptionsEndpoint at h
    split at h
    · cases h
    · dsimp only at h
      split at h
      · cases h
      · cases h
        exact mapGet_set_self _ _ _

/-- C2 witness. -/
theorem challenges_single_slot_per_username_witness :
    mapGet ((generateRegistrationOptionsEndpoint exStatePlain "alice" "c9").1).challenges
      "alice" = some "c9" ∧
    mapGet ((generateAuthenticationOptionsEndpoint exStatePlain "alice" "c8").1).challenges
      "alice" = some "c8" :=
  ⟨(challenges_single_slot_per_username exStatePlain "alice" "c9").1,
   (challenges_single_slot_per_username exStatePlain "alice" "c8").2
     (generateAuthenticationOptionsEndpoint exStatePlain "alice" "c8").1
     { challenge := "c8", allowCredentialIds := ["credA"], prfEnabled := true }
     (by decide)⟩

/-- C3 counterexample: a completion that is rejected does not consume
the challenge.  With chal1 pending for alice, a complete-registration
and a complete-authentication whose signature is invalid both return
verified-false and leave the state — including the pending challenge —
unchanged, and the very same challenge then satisfies a second,
valid completion. -/
theorem rejected_completion_keeps_challenge_cex :
    verifyRegistrationEndpoint exStateChal "alice"
        { exRegResponse with challenge := "chal1", sigValid := false } =
      (exStateChal, .verifiedFalse) ∧
    verifyAuthenticationEndpoint exStateChal "alice"
        { id := "credA", challenge := "chal1", respOrigin := "http://localhost:5173"
        , respRpId := "localhost", sigValid := false, authCounter := 6
        , prfFirst := none } =
      (exStateChal, .verifiedFalse) ∧
    mapGet exStateChal.challenges "alice" = some "chal1" ∧
    (verifyRegistrationEndpoint exStateChal "alice"
        { exRegResponse with challenge := "chal1" }).2 = .verifiedTrue := by
  decide

/-- C3 (amended): only a verified completion consumes the pending
challenge; a completion returning verified-false leaves the server
state, including the pending challenge, unchanged. -/
theorem challenge_consumed_only_on_success (st : ServerState) (u : String) :
    (∀ resp : RegistrationResponse,
      ((verifyRegistrationEndpoint st u resp).2 = .verifiedTrue →
        mapGet (verifyRegistrationEndpoint st u resp).1.challenges u = none) ∧
      ((verifyRegistrationEndpoint st u resp).2 = .verifiedFalse →
        (verifyRegistrationEndpoint st u resp).1 = st)) ∧
    (∀ resp : AuthenticationResponse,
      (∀ usr, (verifyAuthenticationEndpoint st u resp).2 = .verifiedTrue usr →
        mapGet (verifyAuthenticationEndpoint st u resp).1.challenges u = none) ∧
      ((verifyAuthenticationEndpoint st u resp).2 = .verifiedFalse →
        (verifyAuthenticationEndpoint st u resp).1 = st)) := by
  constructor
  · intro resp
    unfold verifyRegistrationEndpoint
    split
    · exact ⟨(fun h => nomatch h), fun _ => rfl⟩
    · split
      · exact ⟨(fun h => nomatch h), fun _ => rfl⟩
      · dsimp only
        split
        · split
          · exact ⟨(fun _ => mapGet_delete_self _ _), fun h => nomatch h⟩
          · exact ⟨(fun h => nomatch h), fun _ => rfl⟩
        · exact ⟨(fun h => nomatch h), fun _ => rfl⟩
  · intro resp
    unfold verifyAuthenticationEndpoint
    split
    · exact ⟨(fun usr h => nomatch h), fun _ => rfl⟩
    · split
      · exact ⟨(fun usr h => nomatch h), fun _ => rfl⟩
      · split
        · exact ⟨(fun usr h => nomatch h), fun _ => rfl⟩
        · split
          · exact ⟨(fun usr h => nomatch h), fun _ => rfl⟩
          · split
            · exact ⟨(fun usr _ => mapGet_delete_self _ _), fun h => nomatch h⟩
            · exact ⟨(fun usr h => nomatch h), fun _ => rfl⟩

/-- C3 witness. -/
theorem challenge_consumed_only_on_success_witness :
    mapGet (verifyRegistrationEndpoint exStateChal "alice"
        { exRegResponse with challenge := "chal1" }).1.challenges "alice" = none ∧
    (verifyAuthenticationEndpoint exStateChal "alice"
        { id := "credA", challenge := "chal2", respOrigin := "http://localhost:5173"
        , respRpId := "localhost", sigValid := true, authCounter := 6
        , prfFirst := none }).1 = exStateChal :=
  ⟨((challenge_consumed_only_on_success exStateChal "alice").1
      { exRegResponse with challenge := "chal1" }).1 (by decide),
   ((challenge_consumed_only_on_success exStateChal "alice").2
      { id := "credA", challenge := "chal2", respOrigin := "http://localhost:5173"
      , respRpId := "localhost", sigValid := true, authCounter := 6
      , prfFirst := none }).2 (by decide)⟩

/-- C5: deriveEncryptionKey is deterministic: its result in any two
call contexts (process, instant, CSPRNG tape) is identical for a fixed
PRF output and salt, and equals the HKDF-SHA256 expansion of the PRF
output under that salt — nothing from the ambient context enters the
derivation. -/
theorem deriveEncryptionKey_deterministic_across_contexts
    (c1 c2 : CallCtx) (prfOutput salt : List Nat) :
    deriveEncryptionKeyAt c1 prfOutput salt = deriveEncryptionKeyAt c2 prfOutput salt ∧
    (deriveEncryptionKeyAt c1 prfOutput salt).material = hkdfSha256 salt prfOutput [] 32 :=
  ⟨rfl, deriveEncryptionKey_material prfOutput salt⟩

/-- C7 counterexample: the claimed InvalidKeyMaterial failure on a
malformed length does not exist.  A one-byte PRF output is not 32 bytes
long, yet derivation succeeds and returns a well-formed non-extractable
256-bit key. -/
theorem deriveKey_no_invalid_key_material_cex :
    ([1] : List Nat).length ≠ 32 ∧
    (deriveEncryptionKey [1] defaultHkdfSalt).material.length = 32 ∧
    (deriveEncryptionKey [1] defaultHkdfSalt).extractable = false :=
  ⟨by decide,
   by rw [deriveEncryptionKey_material]; exact hkdfSha256_length _ _ _ _,
   deriveEncryptionKey_extractable _ _⟩

/-- C7 (amended): deriveEncryptionKey validates no input lengths and
has no failure mode at all: for PRF outputs and salts of every length
it returns a 256-bit AES-GCM key. -/
theorem deriveEncryptionKey_total_success (prfOutput salt : List Nat) :
    (deriveEncryptionKey prfOutput salt).material.length = 32 ∧
    (deriveEncryptionKey prfOutput salt).algorithm = "AES-GCM" ∧
    (deriveEncryptionKey prfOutput salt).keyLength = 256 :=
  ⟨by rw [deriveEncryptionKey_material]; exact hkdfSha256_length _ _ _ _,
   deriveEncryptionKey_algorithm _ _, deriveEncryptionKey_keyLength _ _⟩

/-- C10: complete-authentication looks the credential up solely by the
id in the response and never checks it belongs to the user named in the
request: whenever the pending challenge of the request user matches and
the response verifies against the credential of whatever owner, the
call succeeds, returns the owner row of the credential, updates that
credential's counter, and consumes the request user's challenge —
nothing ties owner to the request username. -/
theorem verify_authentication_ignores_ownership
    (st : ServerState) (u : String) (resp : AuthenticationResponse)
    (pk : PasskeyRow) (owner w : UserRow)
    (hch : mapGet st.challenges u = some resp.challenge)
    (hu : getUser st.users u = some w)
    (hpk : getPasskeyById st resp.id = some (pk, owner))
    (ho : resp.respOrigin = expectedOrigin)
    (hr : resp.respRpId = rpID)
    (hs : resp.sigValid = true)
    (hc : resp.authCounter > pk.counter ∨ (resp.authCounter = 0 ∧ pk.counter = 0)) :
    verifyAuthenticationEndpoint st u resp =
      ({ st with
           passkeys := updatePasskeyCounter st.passkeys pk.cred_id resp.authCounter
         , challenges := mapDelete st.challenges u },
       .verifiedTrue owner) := by
  unfold verifyAuthenticationEndpoint
  rw [hch, hu, hpk]
  dsimp only
  unfold verifyAuthenticationResponseM
  rw [if_pos ⟨rfl, ho, hr, hs⟩, if_pos hc]
  rfl

/-- C10 witness: bob's credential authenticates a request made in the
name alice; the call consumes alice's challenge, bumps bob's credential
counter, and reports bob as the authenticated user. -/
theorem verify_authentication_ignores_ownership_witness :
    verifyAuthenticationEndpoint exCrossState "alice" exCrossResp =
      ({ exCrossState with
           passkeys := updatePasskeyCounter exCrossState.passkeys "credB" 4
         , challenges := mapDelete exCrossState.challenges "alice" },
       .verifiedTrue exBob) ∧
    exBob.username ≠ "alice" :=
  ⟨verify_authentication_ignores_ownership exCrossState "alice" exCrossResp
      exBobPasskey exBob exAlicePlain (by decide) (by decide) (by decide)
      (by decide) (by decide) (by decide) (by decide),
   by decide⟩

/-- C4: a successful complete-authentication stores the verifier-
reported counter, which is at least the previous one; a response whose
reported counter is lower fails with the distinct CounterRegression
error of the external verifier and leaves the server state, credential
counters included, unchanged. -/
theorem counter_update_and_regression (st : ServerState) (u : String)
    (resp : AuthenticationResponse) :
    (∀ usr, (verifyAuthenticationEndpoint st u resp).2 = .verifiedTrue usr →
      ∀ pk j, getPasskeyById st resp.id = some (pk, j) →
        pk.counter ≤ resp.authCounter ∧
        (verifyAuthenticationEndpoint st u resp).1.passkeys.find?
            (fun q => q.cred_id = resp.id) =
          some { pk with counter := resp.authCounter }) ∧
    (∀ pk j w c, mapGet st.challenges u = some c → resp.challenge = c →
      getUser st.users u = some w →
      getPasskeyById st resp.id = some (pk, j) →
      resp.respOrigin = expectedOrigin → resp.respRpId = rpID →
      resp.sigValid = true →
      resp.authCounter < pk.counter →
      verifyAuthenticationEndpoint st u resp = (st, .errorCaught "CounterRegression")) := by
  constructor
  · intro usr hres pk j hpk
    have hfind : st.passkeys.find? (fun q => q.cred_id = resp.id) = some pk := by
      unfold getPasskeyById at hpk
      cases hf : st.passkeys.find? (fun p => p.cred_id = resp.id) with
      | none => rw [hf] at hpk; exact nomatch hpk
      | some p =>
          rw [hf] at hpk
          dsimp only at hpk
          cases hu2 : st.users.find? (fun x => x.id = p.internal_user_id) with
          | none => rw [hu2] at hpk; exact nomatch hpk
          | some uu =>
              rw [hu2] at hpk
              dsimp only at hpk
              cases hpk
              rfl
    have hcred : pk.cred_id = resp.id := by
      have := List.find?_some hfind
      simpa using this
    unfold verifyAuthenticationEndpoint at hres ⊢
    cases hch : mapGet st.challenges u with
    | none => rw [hch] at hres; exact nomatch hres
    | some ec =>
        rw [hch] at hres
        dsimp only at hres ⊢
        cases hu : getUser st.users u with
        | none => rw [hu] at hres; exact nomatch hres
        | some w =>
            rw [hu] at hres
            dsimp only at hres ⊢
            rw [hpk] at hres ⊢
            dsimp only at hres ⊢
            cases hv : verifyAuthenticationResponseM resp ec expectedOrigin rpID pk with
            | error msg => rw [hv] at hres; exact nomatch hres
            | ok v =>
                rw [hv] at hres
                dsimp only at hres ⊢
                obtain ⟨vv, vn⟩ := v
                cases vv with
                | false => exact nomatch hres
                | true =>
                    dsimp only at hres ⊢
                    unfold verifyAuthenticationResponseM at hv
                    split at hv
                    · split at hv
                      · cases hv
                        constructor
                        · rename_i hadv
                          rcases hadv with hadv | hadv <;> omega
                        · rw [if_pos rfl]
                          dsimp only
                          conv_lhs => rw [hcred]
                          exact find_updatePasskeyCounter _ _ _ _ hfind
                      · exact nomatch hv
                    · exact nomatch hv
  · intro pk j w c hch hrc hu hpk ho hr hs hcnt
    unfold verifyAuthenticationEndpoint
    rw [hch, hu, hpk]
    dsimp only
    unfold verifyAuthenticationResponseM
    rw [if_pos ⟨hrc, ho, hr, hs⟩, if_neg (by omega)]

/-- C4 witness: alice's credential with stored counter 5 rejects a
response reporting counter 3 with CounterRegression and the state is
untouched. -/
theorem counter_update_and_regression_witness :
    verifyAuthenticationEndpoint exStateChal "alice" exRegressResp =
      (exStateChal, .errorCaught "CounterRegression") :=
  (counter_update_and_regression exStateChal "alice" exRegressResp).2
    exAlicePasskey exAlicePlain exAlicePlain "chal1"
    (by decide) (by decide) (by decide) (by decide) (by decide) (by decide)
    (by decide) (by decide)

/-- C9: the blob read endpoints consult only the user row (and R2) and
no authentication or ceremony state: for an existing user whose row
holds a truthy blob key with a matching R2 object, retrieve-blob
returns the base64 ciphertext with the stored nonce and check-blob
returns true, unconditionally; both endpoints give identical results on
states differing arbitrarily in challenges and passkeys; and the only
outcomes of retrieve-blob are user-not-found, no-blob-record,
blob-missing-from-storage, and success. -/
theorem blob_read_endpoints_unauthenticated (st : ServerState) (un : String) :
    (∀ u k bytes, usersWellFormed st.users →
      getUser st.users un = some u → u.encrypted_blob_key = some k → k ≠ "" →
      mapGet st.r2 k = some bytes →
      retrieveBlobEndpoint st un = .ok (btoaList bytes) u.blob_nonce ∧
      checkBlobEndpoint st un = .ok true) ∧
    (∀ ch pks,
      retrieveBlobEndpoint { st with challenges := ch, passkeys := pks } un =
        retrieveBlobEndpoint st un ∧
      checkBlobEndpoint { st with challenges := ch, passkeys := pks } un =
        checkBlobEndpoint st un) ∧
    (retrieveBlobEndpoint st un = .errorUserNotFound ∨
     retrieveBlobEndpoint st un = .errorNoBlob ∨
     retrieveBlobEndpoint st un = .errorBlobNotFound ∨
     ∃ b n, retrieveBlobEndpoint st un = .ok b n) := by
  refine ⟨?_, ?_, ?_⟩
  · intro u k bytes hwf hu hk hne hbytes
    have hid : st.users.find? (fun x => x.id = u.id) = some u :=
      find_by_id_of_getUser st.users un u hwf hu
    have href : getUserBlobReference st.users u.id =
        some (u.encrypted_blob_key, u.blob_nonce) := by
      unfold getUserBlobReference
      rw [hid]
      rfl
    constructor
    · unfold retrieveBlobEndpoint
      rw [hu]
      dsimp only
      rw [href]
      dsimp only
      rw [hk]
      dsimp only
      rw [if_neg hne, hbytes]
    · unfold checkBlobEndpoint
      rw [hu]
      dsimp only
      rw [href]
      dsimp only
      rw [hk]
      dsimp only
      simp [hne]
  · intro ch pks
    constructor
    · unfold retrieveBlobEndpoint
      rfl
    · unfold checkBlobEndpoint
      rfl
  · cases hres : retrieveBlobEndpoint st un with
    | ok b n => exact Or.inr (Or.inr (Or.inr ⟨b, n, rfl⟩))
    | errorUserNotFound => exact Or.inl rfl
    | errorNoBlob => exact Or.inr (Or.inl rfl)
    | errorBlobNotFound => exact Or.inr (Or.inr (Or.inl rfl))

/-- C9 witness: with no pending challenge and no passkey consulted,
retrieve-blob hands out the stored ciphertext of alice and check-blob
reports true. -/
theorem blob_read_endpoints_unauthenticated_witness :
    retrieveBlobEndpoint exStateWithSalt "alice" =
      .ok (btoaList [1, 2, 3]) exAliceWithSalt.blob_nonce ∧
    checkBlobEndpoint exStateWithSalt "alice" = .ok true :=
  (blob_read_endpoints_unauthenticated exStateWithSalt "alice").1
    exAliceWithSalt "user-1-blob" [1, 2, 3]
    (by simp [exStateWithSalt, usersWellFormed])
    (by decide) (by decide) (by decide) (by decide)

/-- C8 (amended): when begin-authentication runs for a user with no
stored PRF salt, the client generates a fresh 32-byte salt but keeps it
only in component state and persists nothing: the whole flow leaves the
users table — and hence every stored prf_salt — untouched, so a later
session generates a different salt rather than reusing this one. -/
theorem authenticate_preserves_stored_salts (client : ClientState)
    (st : ServerState) (tape : List Nat) (serverChallenge : String)
    (authResp : AuthenticationResponse) :
    (handleAuthenticate client st tape serverChallenge authResp).2.users = st.users ∧
    (getPrfSaltEndpoint st client.username = .ok none →
      (handleAuthenticate client st tape serverChallenge authResp).1.prfSalt =
        some (generatePrfSalt tape) ∧
      (32 ≤ tape.length → (generatePrfSalt tape).length = 32)) := by
  constructor
  · unfold handleAuthenticate
    dsimp only
    repeat' split
    all_goals
      simp [verifyAuthenticationEndpoint_users, generateAuthenticationOptionsEndpoint_users]
  · intro hsalt
    constructor
    · unfold handleAuthenticate
      rw [hsalt]
      dsimp only
      repeat' split
      all_goals rfl
    · intro hlen
      unfold generatePrfSalt
      rw [List.length_take]
      omega

/-- C8 counterexample: alice has a credential but no stored salt; a
complete successful authentication (PRF output delivered, client
authenticated) generates the fresh salt from the CSPRNG tape, yet
afterwards the stored prf_salt is still null — nothing was persisted —
and running the same flow in a later session with a different tape
produces a different salt. -/
theorem authenticate_salt_not_persisted_cex :
    ((handleAuthenticate exFreshClient exStatePlain (List.range 40) "chalZ"
        { id := "credA", challenge := "chalZ", respOrigin := "http://localhost:5173"
        , respRpId := "localhost", sigValid := true, authCounter := 6
        , prfFirst := some [9] }).1.prfSalt = some ((List.range 40).take 32)) ∧
    ((handleAuthenticate exFreshClient exStatePlain (List.range 40) "chalZ"
        { id := "credA", challenge := "chalZ", respOrigin := "http://localhost:5173"
        , respRpId := "localhost", sigValid := true, authCounter := 6
        , prfFirst := some [9] }).1.isAuthenticated = true) ∧
    ((handleAuthenticate exFreshClient exStatePlain (List.range 40) "chalZ"
        { id := "credA", challenge := "chalZ", respOrigin := "http://localhost:5173"
        , respRpId := "localhost", sigValid := true, authCounter := 6
        , prfFirst := some [9] }).2.users.map (fun u => u.prf_salt) = [none]) ∧
    ((handleAuthenticate exFreshClient exStatePlain
        ((List.range 40).map (fun n => n + 50)) "chalZ"
        { id := "credA", challenge := "chalZ", respOrigin := "http://localhost:5173"
        , respRpId := "localhost", sigValid := true, authCounter := 6
        , prfFirst := some [9] }).1.prfSalt ≠ some ((List.range 40).take 32)) := by
  decide

/-- C6: storing twice under the same derived key overwrites: the blob
store key is derived deterministically from the user id, the second
encrypt-and-store replaces the object under that key without adding a
new one, and a subsequent retrieve-and-decrypt returns exactly the
second plaintext and (when the plaintexts differ) never the first. -/
theorem second_store_overwrites_first
    (client : ClientState) (st : ServerState) (tape1 tape2 : List Nat)
    (P1 P2 prf : List Nat) (u : UserRow)
    (r1c r2c : ClientState) (r1s r2s : ServerState)
    (hwf : usersWellFormed st.users)
    (hprf : client.prfOutput = some prf)
    (hu : getUser st.users client.username = some u)
    (hP1 : P1 ≠ []) (hP2 : P2 ≠ [])
    (hb2 : ∀ b ∈ P2, b < 256)
    (ht2 : ∀ b ∈ tape2, b < 256)
    (hA : handleEncryptAndStore { client with userMessage := P1 } st tape1 = (r1c, r1s))
    (hB : handleEncryptAndStore { r1c with userMessage := P2 } r1s tape2 = (r2c, r2s)) :
    (handleRetrieveAndDecrypt r2c r2s).decryptedMessage = P2 ∧
    r2s.r2.length = r1s.r2.length ∧
    (P1 ≠ P2 → (handleRetrieveAndDecrypt r2c r2s).decryptedMessage ≠ P1) := by
  have hspec1 := handleEncryptAndStore_spec { client with userMessage := P1 }
    st tape1 prf u hprf hP1 hu
  dsimp only at hspec1
  rw [hspec1] at hA
  have hC1 := congrArg Prod.fst hA
  have hS1 := congrArg Prod.snd hA
  dsimp only at hC1 hS1
  have hprfR1 : r1c.prfOutput = some prf := by
    rw [← hC1]
    exact hprf
  have hunR1 : r1c.username = client.username := by
    rw [← hC1]
  have huS1 : getUser r1s.users client.username =
      some { u with encrypted_blob_key := some (userBlobKey u.id),
                    blob_nonce := some (uint8ArrayToBase64Url (generateNonce tape1)) } := by
    rw [← hS1]
    exact getUser_saveUserBlobReference st.users client.username u _ _ hu
  have hwfS1 : usersWellFormed r1s.users := by
    rw [← hS1]
    exact usersWellFormed_save st.users u.id _ _ hwf
  have hgetS1 : (mapGet r1s.r2 (userBlobKey u.id)).isSome := by
    rw [← hS1]
    dsimp only
    rw [mapGet_set_self]
    rfl
  have hspec2 := handleEncryptAndStore_spec { r1c with userMessage := P2 } r1s tape2 prf
    { u with encrypted_blob_key := some (userBlobKey u.id),
             blob_nonce := some (uint8ArrayToBase64Url (generateNonce tape1)) }
    hprfR1 hP2 (by dsimp only; rw [hunR1]; exact huS1)
  dsimp only at hspec2
  rw [hspec2] at hB
  have hC2 := congrArg Prod.fst hB
  have hS2 := congrArg Prod.snd hB
  dsimp only at hC2 hS2
  have hprfR2 : r2c.prfOutput = some prf := by
    rw [← hC2]
    exact hprfR1
  have hunR2 : r2c.username = client.username := by
    rw [← hC2]
    exact hunR1
  have hu3 : getUser r2s.users client.username =
      some { u with encrypted_blob_key := some (userBlobKey u.id),
                    blob_nonce := some (uint8ArrayToBase64Url (generateNonce tape2)) } := by
    rw [← hS2]
    dsimp only
    exact getUser_saveUserBlobReference r1s.users client.username
      { u with encrypted_blob_key := some (userBlobKey u.id),
               blob_nonce := some (uint8ArrayToBase64Url (generateNonce tape1)) } _ _ huS1
  have hwf2 : usersWellFormed r2s.users := by
    rw [← hS2]
    dsimp only
    exact usersWellFormed_save r1s.users u.id _ _ hwfS1
  have hct2b : ∀ b ∈ encryptData (deriveEncryptionKey prf defaultHkdfSalt) P2
      (generateNonce tape2), b < 256 :=
    encryptData_bytes_lt _ _ _ hb2
  have hget2 : mapGet r2s.r2 (userBlobKey u.id) =
      some (atobList (btoaList (encryptData (deriveEncryptionKey prf defaultHkdfSalt)
        P2 (generateNonce tape2)))) := by
    rw [← hS2]
    dsimp only
    exact mapGet_set_self _ _ _
  rw [atob_btoa _ hct2b] at hget2
  have hret : retrieveBlobEndpoint r2s client.username =
      .ok (btoaList (encryptData (deriveEncryptionKey prf defaultHkdfSalt) P2
        (generateNonce tape2)))
        (some (uint8ArrayToBase64Url (generateNonce tape2))) := by
    have := retrieveBlobEndpoint_spec r2s client.username
      { u with encrypted_blob_key := some (userBlobKey u.id),
               blob_nonce := some (uint8ArrayToBase64Url (generateNonce tape2)) }
      (userBlobKey u.id) _ hwf2 hu3 rfl (userBlobKey_ne_empty _) hget2
    exact this
  have hN2b : ∀ b ∈ generateNonce tape2, b < 256 := by
    intro b hb
    exact ht2 b (List.take_subset _ _ hb)
  have hmain : (handleRetrieveAndDecrypt r2c r2s).decryptedMessage = P2 := by
    unfold handleRetrieveAndDecrypt
    rw [hprfR2]
    dsimp only
    rw [hunR2, hret]
    dsimp only
    rw [atob_btoa _ hct2b, base64url_roundtrip _ hN2b, decryptData_encryptData]
  refine ⟨hmain, ?_, ?_⟩
  · rw [← hS2]
    dsimp only
    exact mapSet_length_of_isSome _ _ _ hgetS1
  · intro hne hcontra
    rw [hmain] at hcontra
    exact hne hcontra.symm

/-- C6 witness: alice stores the message bytes of Hi, then of Bye; the
retrieve-and-decrypt that follows yields the bytes of Bye. -/
theorem second_store_overwrites_first_witness :
    (handleRetrieveAndDecrypt
        (handleEncryptAndStore
          { (handleEncryptAndStore { exPrfClient with userMessage := [72, 105] }
              exStateWithSalt (List.range 12)).1 with userMessage := [66, 121, 101] }
          (handleEncryptAndStore { exPrfClient with userMessage := [72, 105] }
              exStateWithSalt (List.range 12)).2
          (List.map (fun n => n + 100) (List.range 12))).1
        (handleEncryptAndStore
          { (handleEncryptAndStore { exPrfClient with userMessage := [72, 105] }
              exStateWithSalt (List.range 12)).1 with userMessage := [66, 121, 101] }
          (handleEncryptAndStore { exPrfClient with userMessage := [72, 105] }
              exStateWithSalt (List.range 12)).2
          (List.map (fun n => n + 100) (List.range 12))).2).decryptedMessage
      = [66, 121, 101] :=
  (second_store_overwrites_first exPrfClient exStateWithSalt (List.range 12)
      (List.map (fun n => n + 100) (List.range 12)) [72, 105] [66, 121, 101]
      [10, 20, 30] exAliceWithSalt _ _ _ _
      (by simp [exStateWithSalt, usersWellFormed]) (by decide) (by decide)
      (by decide) (by decide) (by decide) (by decide) rfl rfl).1

/-- C8 witness. -/
theorem authenticate_preserves_stored_salts_witness :
    ((handleAuthenticate exFreshClient exStatePlain (List.range 40) "chalW"
        { id := "credA", challenge := "chalW", respOrigin := "http://localhost:5173"
        , respRpId := "localhost", sigValid := true, authCounter := 7
        , prfFirst := none }).1.prfSalt = some (generatePrfSalt (List.range 40))) ∧
    ((generatePrfSalt (List.range 40)).length = 32) :=
  ⟨((authenticate_preserves_stored_salts exFreshClient exStatePlain (List.range 40)
      "chalW"
      { id := "credA", challenge := "chalW", respOrigin := "http://localhost:5173"
      , respRpId := "localhost", sigValid := true, authCounter := 7
      , prfFirst := none }).2 (by decide)).1,
   ((authenticate_preserves_stored_salts exFreshClient exStatePlain (List.range 40)
      "chalW"
      { id := "credA", challenge := "chalW", respOrigin := "http://localhost:5173"
      , respRpId := "localhost", sigValid := true, authCounter := 7
      , prfFirst := none }).2 (by decide)).2 (by decide)⟩

end WebauthnPrf
